import Mathlib

/-!
Verification of the MarginGuard analytics-and-decision engine.

This file gives a shallow embedding, in Lean 4, of the TypeScript sources
`services/decisionEngine.ts` (hot-path evaluator), `services/statsEngine.ts`
(streaming statistics and variance decomposition),
`services/counterfactualEngine.ts` (condition/action rule DSL and replay) and
`services/decisionCompiler.ts` (decision compiler), together with theorems
settling the specification claims about them.

Modelling conventions:
* JavaScript numbers are modelled as exact rationals (`ℚ`).  `Math.sqrt` is
  modelled by a fixed-precision rational square root (`sqrtQ`); no claim
  depends on the rounding of an irrational square root.
* JavaScript runtime values flowing through the dynamic condition evaluators
  are modelled by `JSVal` (number / string / boolean / null / undefined),
  with ECMAScript loose equality, abstract relational comparison and
  string conversion implemented on that universe.
* Sources of environment nondeterminism (`Math.random`, `Date`,
  `performance.now`) are made explicit parameters or omitted where they only
  populate presentational fields (`id`, `timestamp`, `latency_overhead_ms`);
  this is noted at each place it happens.
-/

set_option maxRecDepth 1000000

attribute [local semireducible] Rat.mul Rat.inv Rat.add Rat.sub Rat.ofScientific

/-! ## Numeric primitives -/

/-- Floor of a rational, computed with Euclidean integer division (the
denominator of a `Rat` is positive, so this is the mathematical floor). -/
def qfloor (q : ℚ) : ℤ := q.num / (q.den : ℤ)

/-- Round half up, the rounding used by JavaScript `toFixed` for the
nonnegative values produced by this code base. -/
def roundq (q : ℚ) : ℤ := qfloor (q + 1/2)

/-- Models `parseFloat(x.toFixed(k))`: round to `k` decimal places. -/
def roundTo (k : ℕ) (q : ℚ) : ℚ := (roundq (q * (10:ℚ)^k) : ℚ) / (10:ℚ)^k

/-- Integer Newton iteration for square roots, with explicit fuel so that it
is structurally recursive. -/
def isqrtGo (n : ℕ) : ℕ → ℕ → ℕ
  | 0, x => x
  | fuel+1, x =>
    let y := (x + n / x) / 2
    if y < x then isqrtGo n fuel y else x

/-- Integer square root by Newton iteration (enough fuel for all magnitudes
occurring in this development). -/
def isqrt (n : ℕ) : ℕ := if n ≤ 1 then n else isqrtGo n 128 n

/-- Models `Math.sqrt` by a fixed-precision (6 decimal digits) rational
square root.  `sqrtQ 0 = 0` exactly, which is the only property of the
square root any verified claim depends on. -/
def sqrtQ (q : ℚ) : ℚ :=
  if q ≤ 0 then 0 else (isqrt ((qfloor (q * 10^12)).toNat) : ℚ) / 10^6

/-! ## JavaScript runtime values -/

/-- A JavaScript runtime value as it can flow through the dynamic condition
evaluators: number, string, boolean, null or undefined. -/
inductive JSVal where
  | num (q : ℚ)
  | str (s : String)
  | bool (b : Bool)
  | null
  | undefined
deriving DecidableEq

/-- Digits of a natural number, fuel-recursive so the kernel can evaluate. -/
def natDigitsGo (fuel : ℕ) (n : ℕ) (acc : String) : String :=
  match fuel with
  | 0 => acc
  | fuel+1 =>
    let d := Char.ofNat (48 + n % 10)
    let acc := d.toString ++ acc
    if n < 10 then acc else natDigitsGo fuel (n / 10) acc

/-- Decimal rendering of a natural number. -/
def natStr (n : ℕ) : String := natDigitsGo 40 n ""

/-- Decimal rendering of an integer. -/
def intStr (i : ℤ) : String :=
  if i < 0 then "-" ++ natStr i.natAbs else natStr i.natAbs

/-- Rendering of a rational, modelling JS `String(number)`.  It agrees with
JavaScript on integral values, which are the only numeric values this code
base ever turns into strings (grouping keys for integer retry counts); on
non-integral values it is merely an injective rendering. -/
def ratStr (q : ℚ) : String :=
  if q.den = 1 then intStr q.num else intStr q.num ++ "/" ++ natStr q.den

/-- ECMAScript `ToNumber` on strings, for the decimal literals that occur in
this code base: optional sign, digits, optional fractional digits.  The empty
string converts to 0; anything else returns `none`, modelling NaN. -/
def parseDecimalDigits (cs : List Char) (acc : ℚ) : Option ℚ :=
  match cs with
  | [] => some acc
  | c :: rest =>
    if c.isDigit then parseDecimalDigits rest (acc * 10 + ((c.toNat - 48 : ℕ) : ℚ))
    else none

def parseFracDigits (cs : List Char) (acc : ℚ) (scale : ℚ) : Option ℚ :=
  match cs with
  | [] => some acc
  | c :: rest =>
    if c.isDigit then
      parseFracDigits rest (acc + ((c.toNat - 48 : ℕ) : ℚ) * scale) (scale / 10)
    else none

def parseUnsigned (cs : List Char) : Option ℚ :=
  match cs.span Char.isDigit with
  | (intPart, rest) =>
    match rest with
    | [] =>
      if intPart.isEmpty then none
      else parseDecimalDigits intPart 0
    | '.' :: fracPart =>
      if intPart.isEmpty && fracPart.isEmpty then none
      else
        match parseDecimalDigits intPart 0 with
        | none => none
        | some ip => parseFracDigits fracPart ip (1/10)
    | _ => none

/-- `ToNumber` for a string (NaN is `none`). -/
def strToNumber (s : String) : Option ℚ :=
  match s.data with
  | [] => some 0
  | '-' :: rest => (parseUnsigned rest).map (fun q => -q)
  | '+' :: rest => parseUnsigned rest
  | cs => parseUnsigned cs

/-- ECMAScript `ToNumber` on a `JSVal`; `none` models NaN. -/
def toNumber : JSVal → Option ℚ
  | .num q => some q
  | .str s => strToNumber s
  | .bool b => some (if b then 1 else 0)
  | .null => some 0
  | .undefined => none

/-- ECMAScript abstract loose equality (`==`) restricted to the primitive
value universe that occurs in this code base. -/
def jsEq : JSVal → JSVal → Bool
  | .undefined, .undefined => true
  | .undefined, .null => true
  | .null, .undefined => true
  | .null, .null => true
  | .num a, .num b => a == b
  | .str a, .str b => a == b
  | .bool a, .bool b => a == b
  | .num a, .str s => (strToNumber s).any (fun b => a == b)
  | .str s, .num b => (strToNumber s).any (fun a => a == b)
  | .bool a, .num b => (if a then (1:ℚ) else 0) == b
  | .num a, .bool b => a == (if b then (1:ℚ) else 0)
  | .bool a, .str s => (strToNumber s).any (fun b => (if a then (1:ℚ) else 0) == b)
  | .str s, .bool b => (strToNumber s).any (fun a => a == (if b then (1:ℚ) else 0))
  | _, _ => false

/-- ECMAScript abstract relational comparison `x < y`; `none` models the
"undefined" outcome (a NaN operand). -/
def jsRelLt (x y : JSVal) : Option Bool :=
  match x, y with
  | .str a, .str b => some (decide (a < b))
  | x, y =>
    match toNumber x, toNumber y with
    | some a, some b => some (decide (a < b))
    | _, _ => none

/-- JavaScript `x < y`. -/
def jsLt (x y : JSVal) : Bool := (jsRelLt x y).getD false

/-- JavaScript `x > y`. -/
def jsGt (x y : JSVal) : Bool := (jsRelLt y x).getD false

/-- JavaScript `x <= y` (false when the relational comparison is undefined). -/
def jsLe (x y : JSVal) : Bool :=
  match jsRelLt y x with
  | some r => !r
  | none => false

/-- JavaScript `x >= y` (false when the relational comparison is undefined). -/
def jsGe (x y : JSVal) : Bool :=
  match jsRelLt x y with
  | some r => !r
  | none => false

/-- JavaScript `String(v)` on the primitive universe (numbers via `ratStr`,
see there). -/
def jsToString : JSVal → String
  | .num q => ratStr q
  | .str s => s
  | .bool b => if b then "true" else "false"
  | .null => "null"
  | .undefined => "undefined"

/-- Substring test on character lists, structurally recursive. -/
def strContainsAux (needle : List Char) : List Char → Bool
  | [] => needle.isPrefixOf []
  | c :: t => needle.isPrefixOf (c :: t) || strContainsAux needle t

/-- JavaScript `hay.includes(needle)`. -/
def strContains (hay needle : String) : Bool := strContainsAux needle.data hay.data

/-- Stable insertion of `x` into a list sorted in descending `f`-order:
`x` goes after every element with a strictly larger or equal key, matching a
stable sort with comparator `(a, b) => f(b) - f(a)`. -/
def insertDescBy {α : Type} (f : α → ℚ) (x : α) : List α → List α
  | [] => [x]
  | y :: ys => if f x < f y then y :: insertDescBy f x ys else x :: y :: ys

/-- Stable descending sort by a rational key (models stable `Array.sort`
with comparator `(a, b) => f(b) - f(a)`). -/
def sortDescBy {α : Type} (f : α → ℚ) : List α → List α
  | [] => []
  | x :: xs => insertDescBy f x (sortDescBy f xs)

/-! ## Data model (`types.ts`) -/

/-- `InferenceEvent` from `types.ts`.  JS numbers are rationals; `retry_reason`
is `string | null`, modelled as `Option String` (`none` = null); the optional
decision-enrichment fields are `Option` (`none` = absent/undefined). -/
structure InferenceEvent where
  ts : String
  org_id : String
  env : String
  model : String
  endpoint : String
  prompt_hash : String
  prompt_class : String
  tokens_in : ℚ
  tokens_out : ℚ
  latency_ms : ℚ
  retries : ℚ
  retry_reason : Option String
  success : Bool
  cost_usd : ℚ
  decision_id : Option String
  decision_applied : Option String
  rule_applied : Option String
deriving DecidableEq

/-- Dynamic field access `event[name]` on a (fully populated) event record:
a known field yields its value as a `JSVal`, an unknown name yields
undefined, and the null `retry_reason` yields null. -/
def getEventField (e : InferenceEvent) : String → JSVal
  | "ts" => .str e.ts
  | "org_id" => .str e.org_id
  | "env" => .str e.env
  | "model" => .str e.model
  | "endpoint" => .str e.endpoint
  | "prompt_hash" => .str e.prompt_hash
  | "prompt_class" => .str e.prompt_class
  | "tokens_in" => .num e.tokens_in
  | "tokens_out" => .num e.tokens_out
  | "latency_ms" => .num e.latency_ms
  | "retries" => .num e.retries
  | "retry_reason" => match e.retry_reason with | some s => .str s | none => .null
  | "success" => .bool e.success
  | "cost_usd" => .num e.cost_usd
  | "decision_id" => match e.decision_id with | some s => .str s | none => .undefined
  | "decision_applied" => match e.decision_applied with | some s => .str s | none => .undefined
  | "rule_applied" => match e.rule_applied with | some s => .str s | none => .undefined
  | _ => .undefined

/-- `Partial<InferenceEvent>`: every field may be absent.  An absent field
reads as undefined; a present `retry_reason` may still be null. -/
structure RequestContext where
  ts : Option String := none
  org_id : Option String := none
  env : Option String := none
  model : Option String := none
  endpoint : Option String := none
  prompt_hash : Option String := none
  prompt_class : Option String := none
  tokens_in : Option ℚ := none
  tokens_out : Option ℚ := none
  latency_ms : Option ℚ := none
  retries : Option ℚ := none
  retry_reason : Option (Option String) := none
  success : Option Bool := none
  cost_usd : Option ℚ := none
  decision_id : Option String := none
  decision_applied : Option String := none
  rule_applied : Option String := none
deriving DecidableEq

/-- Dynamic field access `context[name]` on a partial request context. -/
def getCtxField (c : RequestContext) : String → JSVal
  | "ts" => match c.ts with | some s => .str s | none => .undefined
  | "org_id" => match c.org_id with | some s => .str s | none => .undefined
  | "env" => match c.env with | some s => .str s | none => .undefined
  | "model" => match c.model with | some s => .str s | none => .undefined
  | "endpoint" => match c.endpoint with | some s => .str s | none => .undefined
  | "prompt_hash" => match c.prompt_hash with | some s => .str s | none => .undefined
  | "prompt_class" => match c.prompt_class with | some s => .str s | none => .undefined
  | "tokens_in" => match c.tokens_in with | some q => .num q | none => .undefined
  | "tokens_out" => match c.tokens_out with | some q => .num q | none => .undefined
  | "latency_ms" => match c.latency_ms with | some q => .num q | none => .undefined
  | "retries" => match c.retries with | some q => .num q | none => .undefined
  | "retry_reason" =>
    match c.retry_reason with
    | some (some s) => .str s
    | some none => .null
    | none => .undefined
  | "success" => match c.success with | some b => .bool b | none => .undefined
  | "cost_usd" => match c.cost_usd with | some q => .num q | none => .undefined
  | "decision_id" => match c.decision_id with | some s => .str s | none => .undefined
  | "decision_applied" => match c.decision_applied with | some s => .str s | none => .undefined
  | "rule_applied" => match c.rule_applied with | some s => .str s | none => .undefined
  | _ => .undefined

/-- `RuleCondition` from `types.ts`.  At the TS level `field` is a string key,
`op` one of the 7 operator strings (a string at runtime), `value` a
string/number/boolean; `value` is modelled as `JSVal`. -/
structure RuleCondition where
  field : String
  op : String
  value : JSVal
deriving DecidableEq

/-- `RuleAction` from `types.ts` (`op` is one of `set`, `cap`, `drop`). -/
structure RuleAction where
  field : String
  op : String
  value : JSVal
deriving DecidableEq

/-- `CounterfactualRule` from `types.ts`. -/
structure CounterfactualRule where
  id : String
  description : String
  condition : RuleCondition
  action : RuleAction
deriving DecidableEq

/-- `ActiveRule` from `types.ts`.  `created_at` (a Firestore timestamp,
never read by the engine) is omitted from the embedding. -/
structure ActiveRule where
  id : String
  rule_id : String
  deploy_state : String
  condition : RuleCondition
  action : RuleAction
  description : String
  risk_score : ℚ
deriving DecidableEq

/-! ## Hot-path evaluator (`services/decisionEngine.ts`) -/

namespace DecisionEngine

/-- The hot-path `evaluateCondition` of `decisionEngine.ts`: a switch over
`condition.op` using JS loose comparison on `context[condition.field]`
against `condition.value`; any unrecognized operator returns false. -/
def evaluateCondition (context : RequestContext) (condition : RuleCondition) : Bool :=
  let val := getCtxField context condition.field
  let target := condition.value
  match condition.op with
  | "==" => jsEq val target
  | "!=" => !jsEq val target
  | ">" => jsGt val target
  | "<" => jsLt val target
  | ">=" => jsGe val target
  | "<=" => jsLe val target
  | "in" => strContains (jsToString target) (jsToString val)
  | _ => false

/-- `EngineResponse` from `types.ts`.  `overrides` is the (at most
one-entry) override map; `latency_overhead_ms` is a wall-clock reading
(`performance.now()` differences) and is omitted from the embedding. -/
structure EngineResponse where
  decision : String
  overrides : Option (List (String × JSVal)) := none
  rule_id : Option String := none
deriving DecidableEq

/-- The rule loop of `evaluateRequest` (step 2 and the default-allow step 3):
skip rules whose `deploy_state` is not `active`; return a CONDITIONAL
response with the verbatim `{action.field: action.value}` override map and
the rule's id at the first condition match; ALLOW if no rule matches. -/
def evalLoop (context : RequestContext) : List ActiveRule → EngineResponse
  | [] => { decision := "ALLOW" }
  | rule :: rest =>
    if rule.deploy_state ≠ "active" then evalLoop context rest
    else if evaluateCondition context rule.condition then
      { decision := "CONDITIONAL"
        overrides := some [(rule.action.field, rule.action.value)]
        rule_id := some rule.id }
    else evalLoop context rest

/-- `evaluateRequest` of `decisionEngine.ts`.  The two sources of
nondeterminism are explicit parameters: `simOutage` is the sampled outcome of
the simulated-outage check `Math.random() > 0.9995` (step 1), and
`internalFault` models an exception thrown anywhere inside the `try` block,
which the `catch` handler converts to a default-ALLOW response. -/
def evaluateRequest (context : RequestContext) (activeRules : List ActiveRule)
    (simOutage internalFault : Bool) : EngineResponse :=
  if internalFault then { decision := "ALLOW" }
  else if simOutage then { decision := "ALLOW" }
  else evalLoop context activeRules

end DecisionEngine

/-! ## Counterfactual engine (`services/counterfactualEngine.ts`) -/

namespace CounterfactualEngine

/-- The counterfactual `evaluateCondition` of `counterfactualEngine.ts`.
Note the switch has cases for `>`, `<`, `==`, `>=`, `<=` and `in` only —
there is no `!=` case, so `!=` falls through to `default: return false`. -/
def evaluateCondition (event : InferenceEvent) (condition : RuleCondition) : Bool :=
  let eventValue := getEventField event condition.field
  let val := condition.value
  match condition.op with
  | ">" => jsGt eventValue val
  | "<" => jsLt eventValue val
  | "==" => jsEq eventValue val
  | ">=" => jsGe eventValue val
  | "<=" => jsLe eventValue val
  | "in" => strContains (jsToString val) (jsToString eventValue)
  | _ => false

/-- The per-model cost table inside `applyAction`. -/
def costMap (model : String) : ℚ :=
  match model with
  | "gpt-4" => 3/100
  | "gpt-3.5-turbo" => 15/10000
  | "claude-3-opus" => 75/1000
  | "claude-3-haiku" => 125/100000
  | _ => 1/100

/-- `applyAction` of `counterfactualEngine.ts`: `drop` removes the event;
`cap` on `retries` clamps retries and rescales cost and tokens by the ratio
of executions `(1+cap)/(1+retries)`; `set` on `model` switches the model and
rescales cost by the per-model rate ratio; anything else returns the copied
event unchanged.  A `cap` value that converts to NaN (`none`) makes the
`retries > cap` test false, hence no mutation. -/
def applyAction (event : InferenceEvent) (action : RuleAction) : Option InferenceEvent :=
  if action.op = "drop" then none
  else
    let newEvent := event
    if action.field ≠ "event" then
      if action.field = "retries" ∧ action.op = "cap" then
        match toNumber action.value with
        | none => some newEvent
        | some cap =>
          if newEvent.retries > cap then
            let originalExecutions := 1 + newEvent.retries
            let newExecutions := 1 + cap
            let ratio := newExecutions / originalExecutions
            some { newEvent with
              retries := cap
              cost_usd := newEvent.cost_usd * ratio
              tokens_in := ((qfloor (newEvent.tokens_in * ratio) : ℤ) : ℚ)
              tokens_out := ((qfloor (newEvent.tokens_out * ratio) : ℤ) : ℚ) }
          else some newEvent
      else if action.field = "model" ∧ action.op = "set" then
        let targetModel := jsToString action.value
        if targetModel ≠ newEvent.model then
          let currentRate := costMap newEvent.model
          let newRate := costMap targetModel
          let ratio := newRate / currentRate
          some { newEvent with
            model := targetModel
            cost_usd := newEvent.cost_usd * ratio }
        else some newEvent
      else some newEvent
    else some newEvent

/-- `replayHistory` of `counterfactualEngine.ts`. -/
def replayHistory (events : List InferenceEvent) (rule : CounterfactualRule) :
    List InferenceEvent :=
  match events with
  | [] => []
  | event :: rest =>
    if evaluateCondition event rule.condition then
      match applyAction event rule.action with
      | some mutated => mutated :: replayHistory rest rule
      | none => replayHistory rest rule
    else event :: replayHistory rest rule

/-- The `cap_retries_1` entry of `AVAILABLE_RULES`. -/
def capRetries1 : CounterfactualRule :=
  { id := "cap_retries_1"
    description := "Cap Retries at 1"
    condition := { field := "retries", op := ">", value := .num 1 }
    action := { field := "retries", op := "cap", value := .num 1 } }

/-- The `retry_only_timeout` entry of `AVAILABLE_RULES`. -/
def retryOnlyTimeout : CounterfactualRule :=
  { id := "retry_only_timeout"
    description := "Retry only on Timeout"
    condition := { field := "retry_reason", op := "!=", value := .str "timeout" }
    action := { field := "retries", op := "cap", value := .num 0 } }

/-- The `downgrade_reporting` entry of `AVAILABLE_RULES`. -/
def downgradeReporting : CounterfactualRule :=
  { id := "downgrade_reporting"
    description := "Route \x22Reporting\x22 to Haiku"
    condition := { field := "prompt_class", op := "==", value := .str "reporting" }
    action := { field := "model", op := "set", value := .str "claude-3-haiku" } }

/-- The `downgrade_reporting_gpt35` entry of `AVAILABLE_RULES`. -/
def downgradeReportingGpt35 : CounterfactualRule :=
  { id := "downgrade_reporting_gpt35"
    description := "Route \x22Reporting\x22 to GPT-3.5"
    condition := { field := "prompt_class", op := "==", value := .str "reporting" }
    action := { field := "model", op := "set", value := .str "gpt-3.5-turbo" } }

/-- `AVAILABLE_RULES` of `counterfactualEngine.ts`, in source order. -/
def AVAILABLE_RULES : List CounterfactualRule :=
  [capRetries1, retryOnlyTimeout, downgradeReporting, downgradeReportingGpt35]

end CounterfactualEngine

/-! ## Stats engine (`services/statsEngine.ts`) -/

/-- The state of a `StreamingStats` accumulator: Welford count/mean/M2,
min/max (the `Infinity` / `-Infinity` initial sentinels are modelled by
`none`), and the quantile reservoir.  The reservoir push models the
`reservoir.length < reservoirSize` branch of the source; the full-reservoir
branch replaces a uniformly random slot `j` only when `j` falls inside the
reservoir, and is modelled here as the (always possible) execution in which
`j` falls outside.  No verified claim reads the reservoir beyond the
deterministic regime. -/
structure StreamingStats where
  count : ℕ := 0
  mean : ℚ := 0
  M2 : ℚ := 0
  minv : Option ℚ := none
  maxv : Option ℚ := none
  reservoir : List ℚ := []
deriving DecidableEq

namespace StreamingStats

/-- `reservoirSize` of the source. -/
def reservoirSize : ℕ := 1000

/-- `update(value)`: one Welford step plus min/max and reservoir update. -/
def update (s : StreamingStats) (value : ℚ) : StreamingStats :=
  let count := s.count + 1
  let delta := value - s.mean
  let mean := s.mean + delta / (count : ℚ)
  let delta2 := value - mean
  let M2 := s.M2 + delta * delta2
  let minv := match s.minv with
    | none => some value
    | some m => if value < m then some value else some m
  let maxv := match s.maxv with
    | none => some value
    | some m => if value > m then some value else some m
  let reservoir :=
    if s.reservoir.length < reservoirSize then s.reservoir ++ [value] else s.reservoir
  { count := count, mean := mean, M2 := M2, minv := minv, maxv := maxv,
    reservoir := reservoir }

/-- Feed a list of values into a fresh accumulator, in order. -/
def ofList (xs : List ℚ) : StreamingStats := xs.foldl update {}

/-- `getVariance()`. -/
def getVariance (s : StreamingStats) : ℚ :=
  if s.count < 2 then 0 else s.M2 / ((s.count : ℚ) - 1)

/-- `getStdDev()`. -/
def getStdDev (s : StreamingStats) : ℚ := sqrtQ (getVariance s)

/-- `getQuantile(q)`: sort the reservoir and linearly interpolate. -/
def getQuantile (s : StreamingStats) (q : ℚ) : ℚ :=
  if s.reservoir.length = 0 then 0
  else
    let sorted := (sortDescBy id s.reservoir).reverse
    let pos := ((sorted.length : ℚ) - 1) * q
    let base := (qfloor pos).toNat
    let rest := pos - ((qfloor pos : ℤ) : ℚ)
    match sorted.get? (base + 1) with
    | some next => sorted.getD base 0 + rest * (next - sorted.getD base 0)
    | none => sorted.getD base 0

/-- `DistributionStats` from `types.ts`. -/
structure DistributionStats where
  count : ℕ
  mean : ℚ
  variance : ℚ
  std_dev : ℚ
  cv : ℚ
  min : ℚ
  max : ℚ
  p50 : ℚ
  p90 : ℚ
  p95 : ℚ
  p99 : ℚ
  tail_mass : ℚ
  instability_index : ℚ
deriving DecidableEq

/-- `getStats(events)`. -/
def getStats (s : StreamingStats) (events : List InferenceEvent) : DistributionStats :=
  let variance := getVariance s
  let stdDev := getStdDev s
  let mean := s.mean
  let threshold := mean + 2 * stdDev
  let tailCount := (events.filter (fun e => e.cost_usd > threshold)).length
  let tailMass := if events.length > 0 then (tailCount : ℚ) / (events.length : ℚ) else 0
  let retryRate := if events.length > 0 then
      ((events.filter (fun e => e.retries > 0)).length : ℚ) / (events.length : ℚ)
    else 0
  { count := s.count
    mean := mean
    variance := variance
    std_dev := stdDev
    cv := if mean > 0 then stdDev / mean else 0
    min := s.minv.getD 0
    max := s.maxv.getD 0
    p50 := getQuantile s (50/100)
    p90 := getQuantile s (90/100)
    p95 := getQuantile s (95/100)
    p99 := getQuantile s (99/100)
    tail_mass := tailMass
    instability_index := (if mean > 0 then stdDev / mean else 0) * tailMass * (1 + retryRate) }

end StreamingStats

/-- Append a cost to the group of key `k`, preserving first-occurrence key
order (models accumulation into a JS `Record<string, number[]>`). -/
def addToGroups (gs : List (String × List ℚ)) (k : String) (c : ℚ) :
    List (String × List ℚ) :=
  match gs with
  | [] => [(k, [c])]
  | (k', cs) :: rest =>
    if k' = k then (k', cs ++ [c]) :: rest else (k', cs) :: addToGroups rest k c

/-- Group the events' costs by the rendered value of one dimension field,
modelling the `groups` record built in `decomposeVariance`. -/
def groupCosts (events : List InferenceEvent) (dim : String) : List (String × List ℚ) :=
  events.foldl (fun gs e => addToGroups gs (jsToString (getEventField e dim)) e.cost_usd) []

/-- The weighted between-group variance sum of `decomposeVariance`:
`Σ group_size · (group_mean − global_mean)²` (group means are read off a
per-group `StreamingStats`, exactly as in the source). -/
def weightedMeanVariance (events : List InferenceEvent) (dim : String)
    (globalMean : ℚ) : ℚ :=
  (groupCosts events dim).foldl
    (fun acc g =>
      let groupStats := StreamingStats.ofList g.2
      let meanDiff := groupStats.mean - globalMean
      acc + (g.2.length : ℚ) * (meanDiff * meanDiff))
    0

/-- The dimensions iterated by `decomposeVariance`, in source order. -/
def dimensions : List String := ["model", "prompt_class", "retries"]

/-- The rounded fraction `decomposeVariance` stores for one dimension:
`parseFloat(min(variance_explained / total_variance, 1).toFixed(4))`. -/
def dimContribution (events : List InferenceEvent) (totalVariance : ℚ)
    (dim : String) : ℚ :=
  let globalMean := (StreamingStats.ofList (events.map (·.cost_usd))).mean
  let varianceExplained := weightedMeanVariance events dim globalMean / ((events.length : ℚ) - 1)
  roundTo 4 (min (varianceExplained / totalVariance) 1)

/-- Total (Welford) variance of the window's costs, as computed by the
`globalStats` accumulator of `decomposeVariance`. -/
def totalVarianceOf (events : List InferenceEvent) : ℚ :=
  (StreamingStats.ofList (events.map (·.cost_usd))).getVariance

/-- `decomposeVariance` of `statsEngine.ts`.  The result models the JS object
as an insertion-ordered association list: the three dimensions in source
order followed by the `"noise"` residual. -/
def decomposeVariance (events : List InferenceEvent) : List (String × ℚ) :=
  if events.length < 5 then []
  else
    let totalVariance := totalVarianceOf events
    if totalVariance = 0 then []
    else
      let contribs := dimensions.map (fun dim => (dim, dimContribution events totalVariance dim))
      let explainedVarianceSum := contribs.foldl (fun acc p => acc + p.2) 0
      contribs ++ [("noise", max 0 (roundTo 4 (1 - explainedVarianceSum)))]

/-- `RootCauseAnalysis` entry from `types.ts`. -/
structure RetryCause where
  cause : String
  share : ℚ
deriving DecidableEq

/-- `RootCauseAnalysis` from `types.ts`. -/
structure RootCauseAnalysis where
  top_causes : List RetryCause
deriving DecidableEq

/-- Count occurrences of a key in an insertion-ordered association list
(models `counts[reason] = (counts[reason] || 0) + 1`). -/
def bumpCount (cs : List (String × ℕ)) (k : String) : List (String × ℕ) :=
  match cs with
  | [] => [(k, 1)]
  | (k', n) :: rest =>
    if k' = k then (k', n + 1) :: rest else (k', n) :: bumpCount rest k

/-- `analyzeRetryCauses` of `statsEngine.ts`.  The filter keeps events with
`retries > 0` and a truthy `retry_reason` (present and non-empty). -/
def analyzeRetryCauses (events : List InferenceEvent) : RootCauseAnalysis :=
  let retriedEvents := events.filter
    (fun e => decide (e.retries > 0) && (match e.retry_reason with
      | some s => s ≠ ""
      | none => false))
  if retriedEvents.length = 0 then { top_causes := [] }
  else
    let counts := retriedEvents.foldl
      (fun cs e => bumpCount cs (match e.retry_reason with
        | some s => if s = "" then "unknown" else s
        | none => "unknown")) []
    let total := retriedEvents.length
    let causes := counts.map (fun p => { cause := p.1, share := (p.2 : ℚ) / (total : ℚ) })
    { top_causes := sortDescBy (·.share) causes }

/-- One entry of `BlastRadius.top_3_tenants`. -/
structure TenantImpact where
  id : String
  share : ℚ
deriving DecidableEq

/-- `BlastRadius` from `types.ts`. -/
structure BlastRadius where
  affected_tenants_pct : ℚ
  affected_revenue_pct : ℚ
  top_3_tenants : List TenantImpact
deriving DecidableEq

/-- Accumulate a tenant's cost in an insertion-ordered association list. -/
def bumpCost (cs : List (String × ℚ)) (k : String) (c : ℚ) : List (String × ℚ) :=
  match cs with
  | [] => [(k, c)]
  | (k', q) :: rest =>
    if k' = k then (k', q + c) :: rest else (k', q) :: bumpCost rest k c

/-- `analyzeBlastRadius` of `statsEngine.ts`. -/
def analyzeBlastRadius (events problematicEvents : List InferenceEvent) : BlastRadius :=
  let totalRevenue := events.foldl (fun acc e => acc + e.cost_usd) 0
  let affectedRevenue := problematicEvents.foldl (fun acc e => acc + e.cost_usd) 0
  let uniqueTenants := (events.map (·.org_id)).dedup
  let affectedTenants := (problematicEvents.map (·.org_id)).dedup
  let tenantImpact := problematicEvents.foldl (fun cs e => bumpCost cs e.org_id e.cost_usd) []
  let topTenants := (sortDescBy (·.share)
    (tenantImpact.map (fun p =>
      { id := p.1, share := p.2 / (if affectedRevenue = 0 then 1 else affectedRevenue) }))).take 3
  { affected_tenants_pct :=
      if uniqueTenants.length > 0 then
        (affectedTenants.length : ℚ) / (uniqueTenants.length : ℚ)
      else 0
    affected_revenue_pct := if totalRevenue > 0 then affectedRevenue / totalRevenue else 0
    top_3_tenants := topTenants }

/-! ## Decision compiler (`services/decisionCompiler.ts`) -/

namespace DecisionCompiler

open CounterfactualEngine StreamingStats

/-- `DecisionState` from `types.ts`. -/
inductive DecisionState where
  | RECOMMENDED
  | CONDITIONAL
  | HOLD
  | INSUFFICIENT_EVIDENCE
deriving DecidableEq

/-- `ConfidenceMetric` from `types.ts` (`overfit_risk` is one of the strings
`LOW`, `MEDIUM`, `HIGH`). -/
structure ConfidenceMetric where
  data_coverage_pct : ℚ
  effect_stability : ℚ
  sample_size : ℕ
  model_fit_r2 : ℚ
  final_score : ℚ
  overfit_risk : String
deriving DecidableEq

/-- `Guardrail` from `types.ts`. -/
structure Guardrail where
  action : String
  only_if : List String
deriving DecidableEq

/-- `AlternativeAction` from `types.ts`. -/
structure AlternativeAction where
  action : String
  score : ℚ
  risk : String
deriving DecidableEq

/-- `ImpactPrediction` from `types.ts`. -/
structure ImpactPrediction where
  mean_savings_usd : ℚ
  p95_savings_usd : ℚ
  monthly_projection_usd : ℚ
  variance_reduction_pct : ℚ
  distribution_notes : String
deriving DecidableEq

/-- `InactionCost` from `types.ts`. -/
structure InactionCost where
  expected_monthly_loss_usd : ℚ
  tail_event_probability : ℚ
  runway_impact_days : ℚ
deriving DecidableEq

/-- `RiskAssessment` from `types.ts`. -/
structure RiskAssessment where
  tail_risk_delta : ℚ
  latency_impact_ms : ℚ
deriving DecidableEq

/-- The `counterfactual_comparison` component of `Proof` in `types.ts`. -/
structure CfComparison where
  baseline_cost : ℚ
  simulated_cost : ℚ
deriving DecidableEq

/-- `Proof` from `types.ts`. -/
structure ProofBlock where
  variance_decomposition : List (String × ℚ)
  noise_context : Option String
  counterfactual_comparison : CfComparison
deriving DecidableEq

/-- `Reversibility` from `types.ts`. -/
structure Reversibility where
  rollback_time_minutes : ℚ
  monitor_metric : String
  abort_threshold : ℚ
deriving DecidableEq

/-- `DecisionObject` from `types.ts`.  The `id` (`Math.random`-derived) and
`timestamp` (`Date`) fields are environment nondeterminism and are omitted
from the embedding; every other field is modelled. -/
structure DecisionObject where
  issue : String
  decision_state : DecisionState
  decision_state_rationale : List String
  root_cause : String
  confidence : ConfidenceMetric
  recommended_action : Guardrail
  alternative_actions_considered : List AlternativeAction
  rule_generated : CounterfactualRule
  expected_impact : ImpactPrediction
  inaction_cost : InactionCost
  risk : RiskAssessment
  proofBlock : ProofBlock
  analysis_deep_dive : RootCauseAnalysis
  blast_radius : BlastRadius
  reversibility : Reversibility
deriving DecidableEq

/-- Fixed-point decimal rendering with `k` digits, modelling `toFixed(k)`
for the nonnegative values this code turns into strings. -/
def fixedStr (k : ℕ) (q : ℚ) : String :=
  let m := roundq (q * (10:ℚ)^k)
  if k = 0 then intStr m
  else intStr (m.ediv ((10:ℤ)^k)) ++ "." ++ natStr (m.emod ((10:ℤ)^k)).toNat

/-- Step 3 of `compileDecision`: scan the variance map for the non-noise
entry with the largest fraction, starting from `('noise', 0)`; a later entry
wins only with a strictly larger value. -/
def pickDriver (varianceMap : List (String × ℚ)) : String × ℚ :=
  varianceMap.foldl
    (fun acc kv => if kv.2 > acc.2 ∧ kv.1 ≠ "noise" then kv else acc)
    ("noise", 0)

/-- The driver `compileDecision` selects for a window. -/
def driverOf (events : List InferenceEvent) : String :=
  (pickDriver (decomposeVariance events)).1

/-- Step 4 of `compileDecision`: the primary catalog rule for a driver
(`none` when no catalog rule targets the driver, in which case the compiler
returns null). -/
def selectedRuleFor (driver : String) : Option CounterfactualRule :=
  if driver = "retries" then AVAILABLE_RULES.find? (fun r => r.id = "cap_retries_1")
  else if driver = "prompt_class" then AVAILABLE_RULES.find? (fun r => r.id = "downgrade_reporting")
  else none

/-- Step 4, alternatives: zero or more alternative catalog rules for the
driver (`[find(...)].filter(Boolean)` in the source). -/
def alternativeRulesFor (driver : String) : List CounterfactualRule :=
  if driver = "retries" then (AVAILABLE_RULES.find? (fun r => r.id = "retry_only_timeout")).toList
  else if driver = "prompt_class" then
    (AVAILABLE_RULES.find? (fun r => r.id = "downgrade_reporting_gpt35")).toList
  else []

/-- Step 1: the baseline `DistributionStats` over the window. -/
def baselineStatsOf (events : List InferenceEvent) : DistributionStats :=
  (StreamingStats.ofList (events.map (·.cost_usd))).getStats events

/-- Step 5: counterfactual stats after replaying a rule over the window. -/
def cfStatsOf (events : List InferenceEvent) (rule : CounterfactualRule) : DistributionStats :=
  let cfEvents := replayHistory events rule
  (StreamingStats.ofList (cfEvents.map (·.cost_usd))).getStats cfEvents

/-- Step 5b: the alternatives-considered list, primary rule first with its
fixed score/risk, then the mock-scored alternatives, sorted by descending
score (stable). -/
def alternativesConsideredOf (selectedRule : CounterfactualRule)
    (alternativeRules : List CounterfactualRule) : List AlternativeAction :=
  let primary : AlternativeAction :=
    { action := selectedRule.description, score := 92/100, risk := "MEDIUM" }
  let alts := alternativeRules.map (fun rule =>
    if rule.id = "retry_only_timeout" then
      ({ action := rule.description, score := 94/100, risk := "LOW" } : AlternativeAction)
    else if rule.id = "downgrade_reporting_gpt35" then
      { action := rule.description, score := 85/100, risk := "LOW" }
    else
      { action := rule.description, score := 0, risk := "LOW" })
  sortDescBy (·.score) (primary :: alts)

/-- Step 7: data coverage `min(window/200, 1)`. -/
def dataCoverageOf (events : List InferenceEvent) : ℚ :=
  min ((events.length : ℚ) / 200) 1

/-- Step 7: effect stability `1 − min(cv, 0.5)`. -/
def effectStabilityOf (events : List InferenceEvent) : ℚ :=
  1 - min (baselineStatsOf events).cv (1/2)

/-- The noise entry of the variance map (`varianceMap['noise'] || 0`). -/
def noiseValOf (events : List InferenceEvent) : ℚ :=
  ((decomposeVariance events).lookup "noise").getD 0

/-- Step 7: model fit `1 − noise`. -/
def modelFitR2Of (events : List InferenceEvent) : ℚ := 1 - noiseValOf events

/-- Step 7: the (unrounded) confidence score
`0.3·data_coverage + 0.2·effect_stability + 0.5·model_fit`. -/
def finalConfidenceScoreOf (events : List InferenceEvent) : ℚ :=
  dataCoverageOf events * (3/10) + effectStabilityOf events * (2/10) +
    modelFitR2Of events * (5/10)

/-- Step 7b: overfit risk (HIGH below 100 events, MEDIUM below 300, and
escalated to at least MEDIUM when the model fit exceeds 0.98). -/
def overfitRiskOf (events : List InferenceEvent) : String :=
  let base := if events.length < 100 then "HIGH"
    else if events.length < 300 then "MEDIUM"
    else "LOW"
  if modelFitR2Of events > 98/100 ∧ base ≠ "HIGH" then "MEDIUM" else base

/-- Step 8: the "problematic" events used for the blast radius, approximated
from the driver semantics. -/
def problematicEventsOf (events : List InferenceEvent) (driver : String) :
    List InferenceEvent :=
  if driver = "retries" then events.filter (fun e => e.retries > 1)
  else if driver = "prompt_class" then events.filter (fun e => e.prompt_class = "reporting")
  else []

/-- Step 8: the blast radius of the window under its selected driver. -/
def blastRadiusOf (events : List InferenceEvent) : BlastRadius :=
  analyzeBlastRadius events (problematicEventsOf events (driverOf events))

/-- Step 10, state machine: `INSUFFICIENT_EVIDENCE` when the (unrounded)
confidence score is below 0.6, else `HOLD` when the blast-radius revenue
share exceeds 0.5, else `CONDITIONAL`. -/
def decisionStateOf (events : List InferenceEvent) : DecisionState :=
  if finalConfidenceScoreOf events < 6/10 then .INSUFFICIENT_EVIDENCE
  else if (blastRadiusOf events).affected_revenue_pct > 5/10 then .HOLD
  else .CONDITIONAL

/-- Step 10, rationale list, mirroring the pushes of the source. -/
def rationaleOf (events : List InferenceEvent) : List String :=
  if finalConfidenceScoreOf events < 6/10 then ["Confidence score < 0.6"]
  else if (blastRadiusOf events).affected_revenue_pct > 5/10 then
    ["Blast radius affects " ++
      fixedStr 0 ((blastRadiusOf events).affected_revenue_pct * 100) ++ "% of revenue"]
  else
    (if (baselineStatsOf events).tail_mass > 5/100 then ["High tail-risk detected (>p99)"] else [])
    ++ (if driverOf events = "retries" ∧
          (analyzeRetryCauses events).top_causes.any (fun c => strContains c.cause "503")
        then ["Retry failures include upstream_503"] else [])
    ++ (if overfitRiskOf events ≠ "LOW"
        then ["Sample size risk (" ++ overfitRiskOf events ++ ")"] else [])

/-- Step 9: guardrails by driver. -/
def guardrailsFor (driver : String) : List String :=
  if driver = "retries" then ["error_type != provider_5xx", "success_rate >= 99.2%"]
  else ["latency_p99 < 2000ms", "user_segment != \x27enterprise\x27"]

/-- Steps 5-12 of `compileDecision`: the decision object assembled once a
rule has been selected.  The division in `varianceReduction` is exact
rational division (the non-null path implies a nonzero baseline variance,
so the division is well-defined there). -/
def buildDecision (events : List InferenceEvent)
    (selectedRule : CounterfactualRule) : DecisionObject :=
  let varianceMap := decomposeVariance events
  let driver := driverOf events
  let driverContribution := (varianceMap.lookup driver).getD 0
  let baselineStats := baselineStatsOf events
  let cfEvents := replayHistory events selectedRule
  let cfStats := cfStatsOf events selectedRule
  let meanSavings := baselineStats.mean - cfStats.mean
  let p95Reduction := baselineStats.p95 - cfStats.p95
  let varianceReduction := (baselineStats.variance - cfStats.variance) / baselineStats.variance
  let distNotes :=
    if meanSavings > 0 ∧ p95Reduction ≤ 1/10000 then
      "Savings concentrated in extreme tail (>p99); p95 unaffected."
    else if varianceReduction > 4/10 then
      "Major volatility reduction; impact weighted on outliers."
    else "Impact uniform across distribution."
  let projectedMonthlyLoss := meanSavings * 1000000
  let runwayImpactDays := projectedMonthlyLoss / 15000 * 30
  { issue := "High cost volatility driven by " ++ driver
    decision_state := decisionStateOf events
    decision_state_rationale := rationaleOf events
    root_cause := driver ++ " explains " ++ fixedStr 1 (driverContribution * 100) ++
      "% of variance"
    confidence :=
      { data_coverage_pct := roundTo 2 (dataCoverageOf events)
        effect_stability := roundTo 2 (effectStabilityOf events)
        sample_size := events.length
        model_fit_r2 := roundTo 2 (modelFitR2Of events)
        final_score := roundTo 3 (finalConfidenceScoreOf events)
        overfit_risk := overfitRiskOf events }
    recommended_action :=
      { action := selectedRule.description, only_if := guardrailsFor driver }
    alternative_actions_considered :=
      alternativesConsideredOf selectedRule (alternativeRulesFor driver)
    rule_generated := selectedRule
    expected_impact :=
      { mean_savings_usd := roundTo 2 (meanSavings * 1000)
        p95_savings_usd := roundTo 2 (p95Reduction * 1000)
        monthly_projection_usd := roundTo 0 projectedMonthlyLoss
        variance_reduction_pct := roundTo 1 (varianceReduction * 100)
        distribution_notes := distNotes }
    inaction_cost :=
      { expected_monthly_loss_usd := roundTo 0 projectedMonthlyLoss
        tail_event_probability := roundTo 3 baselineStats.tail_mass
        runway_impact_days := roundTo 1 runwayImpactDays }
    risk :=
      { tail_risk_delta := roundTo 4 (baselineStats.tail_mass - cfStats.tail_mass)
        latency_impact_ms := if driver = "prompt_class" then -150 else 0 }
    proofBlock :=
      { variance_decomposition := varianceMap
        noise_context :=
          if noiseValOf events < 2/100 then
            some "Deterministic constraint detected (Noise < 2%)."
          else none
        counterfactual_comparison :=
          { baseline_cost := roundTo 2 (baselineStats.mean * (events.length : ℚ))
            simulated_cost := roundTo 2 (cfStats.mean * (cfEvents.length : ℚ)) } }
    analysis_deep_dive := analyzeRetryCauses events
    blast_radius := blastRadiusOf events
    reversibility :=
      { rollback_time_minutes := 2
        monitor_metric := "p99_latency"
        abort_threshold := 2000 } }

/-- `compileDecision` of `decisionCompiler.ts`: null below the 50-event
significance floor and when no catalog rule targets the selected driver,
otherwise the assembled decision object. -/
def compileDecision (events : List InferenceEvent) : Option DecisionObject :=
  if events.length < 50 then none
  else
    match selectedRuleFor (driverOf events) with
    | none => none
    | some selectedRule => some (buildDecision events selectedRule)

end DecisionCompiler

/-! ## Specification-side definitions

These follow the wording of the specification (not the source) and exist to
be compared against the embedded source definitions. -/

/-- The two-pass sample variance of the specification: sum of squared
deviations from the mean, divided by `n − 1`. -/
def twoPassVariance (xs : List ℚ) : ℚ :=
  let mean := xs.sum / (xs.length : ℚ)
  (xs.map (fun x => (x - mean)^2)).sum / ((xs.length : ℚ) - 1)

/-- The specification's description of the hot path: the first rule, in list
order, whose `deploy_state` is `active` and whose condition matches. -/
def firstActiveMatch (context : RequestContext) (rules : List ActiveRule) :
    Option ActiveRule :=
  rules.find? (fun r =>
    decide (r.deploy_state = "active") && DecisionEngine.evaluateCondition context r.condition)

/-- The specification's condition evaluator for the counterfactual engine:
all six comparison operators `>`, `<`, `==`, `>=`, `<=`, `!=` plus the loose
substring-style `in`; unknown operators return false. -/
def specEvaluateCondition (event : InferenceEvent) (condition : RuleCondition) : Bool :=
  let eventValue := getEventField event condition.field
  let val := condition.value
  match condition.op with
  | ">" => jsGt eventValue val
  | "<" => jsLt eventValue val
  | "==" => jsEq eventValue val
  | ">=" => jsGe eventValue val
  | "<=" => jsLe eventValue val
  | "!=" => !jsEq eventValue val
  | "in" => strContains (jsToString val) (jsToString eventValue)
  | _ => false

/-- The exact (unrounded) per-dimension variance fraction, as the
specification describes the comparison logic operating on unrounded values. -/
def dimContributionExact (events : List InferenceEvent) (totalVariance : ℚ)
    (dim : String) : ℚ :=
  let globalMean := (StreamingStats.ofList (events.map (·.cost_usd))).mean
  let varianceExplained := weightedMeanVariance events dim globalMean / ((events.length : ℚ) - 1)
  min (varianceExplained / totalVariance) 1

/-- The variance decomposition computed on exact (unrounded) fractions. -/
def decomposeVarianceExact (events : List InferenceEvent) : List (String × ℚ) :=
  if events.length < 5 then []
  else
    let totalVariance := totalVarianceOf events
    if totalVariance = 0 then []
    else
      let contribs := dimensions.map
        (fun dim => (dim, dimContributionExact events totalVariance dim))
      let explainedVarianceSum := contribs.foldl (fun acc p => acc + p.2) 0
      contribs ++ [("noise", max 0 (1 - explainedVarianceSum))]

/-- The sum of the three (rounded) dimension fractions stored by
`decomposeVariance`. -/
def dimFracSum (events : List InferenceEvent) : ℚ :=
  (dimensions.map (fun dim => (dim, dimContribution events (totalVarianceOf events) dim))).foldl
    (fun acc p => acc + p.2) 0

/-- A primitive (string/number/boolean) `JSVal`, the type the TS interface
gives to a rule condition's `value` field. -/
def isPrimitive : JSVal → Bool
  | .null => false
  | .undefined => false
  | _ => true

/-- Agreement on every event field except `retries`, `cost_usd`, `tokens_in`
and `tokens_out` — what the claim asserts the applied cap-retries action
leaves unchanged. -/
def agreesExceptRetryCap (e e' : InferenceEvent) : Prop :=
  e'.ts = e.ts ∧ e'.org_id = e.org_id ∧ e'.env = e.env ∧ e'.model = e.model ∧
  e'.endpoint = e.endpoint ∧ e'.prompt_hash = e.prompt_hash ∧
  e'.prompt_class = e.prompt_class ∧ e'.latency_ms = e.latency_ms ∧
  e'.retry_reason = e.retry_reason ∧ e'.success = e.success ∧
  e'.decision_id = e.decision_id ∧ e'.decision_applied = e.decision_applied ∧
  e'.rule_applied = e.rule_applied

/-- Agreement on every event field except `model` and `cost_usd` — what the
claim asserts the applied set-model action leaves unchanged. -/
def agreesExceptSetModel (e e' : InferenceEvent) : Prop :=
  e'.ts = e.ts ∧ e'.org_id = e.org_id ∧ e'.env = e.env ∧
  e'.endpoint = e.endpoint ∧ e'.prompt_hash = e.prompt_hash ∧
  e'.prompt_class = e.prompt_class ∧ e'.tokens_in = e.tokens_in ∧
  e'.tokens_out = e.tokens_out ∧ e'.latency_ms = e.latency_ms ∧
  e'.retries = e.retries ∧ e'.retry_reason = e.retry_reason ∧
  e'.success = e.success ∧ e'.decision_id = e.decision_id ∧
  e'.decision_applied = e.decision_applied ∧ e'.rule_applied = e.rule_applied

/-- The mean cost of a batch, read off the streaming accumulator exactly as
the compiler computes `DistributionStats.mean`. -/
def meanCostOf (events : List InferenceEvent) : ℚ :=
  (StreamingStats.ofList (events.map (·.cost_usd))).mean

/-! ## Concrete inputs used by witnesses and counterexamples -/

/-- An event constructor fixing the fields irrelevant to the analytics. -/
def mkEvent (modelName promptClass : String) (retries cost : ℚ) : InferenceEvent :=
  { ts := "2025-01-01T00:00:00Z"
    org_id := "acme_corp"
    env := "prod"
    model := modelName
    endpoint := "/v1/infer"
    prompt_hash := "h0"
    prompt_class := promptClass
    tokens_in := 1000
    tokens_out := 100
    latency_ms := 120
    retries := retries
    retry_reason := none
    success := true
    cost_usd := cost
    decision_id := none
    decision_applied := none
    rule_applied := none }

/-- A 50-event window: 25 zero-cost events without retries and 25 cost-2
events with 2 retries each.  Its driver is `retries`, its confidence score is
27/40 and its blast-radius revenue share is 1, so the compiler must HOLD. -/
def w50hold : List InferenceEvent :=
  List.replicate 25 (mkEvent "gpt-4" "chat" 0 0) ++
    List.replicate 25 (mkEvent "gpt-4" "chat" 2 2)

/-- Five events engineered so that the exact variance fractions are
model = 1/1350246, prompt_class = 121/1350246 and retries = 529/5400984:
prompt_class is strictly below retries, but both round to 0.0001 at 4
decimal places. -/
def wC9base : List InferenceEvent :=
  [mkEvent "gpt-4" "chat" 0 302,
   mkEvent "gpt-4" "chat" 2 302,
   mkEvent "claude-3-opus" "chat" 2 307,
   mkEvent "claude-3-opus" "summarization" 0 600,
   mkEvent "claude-3-opus" "summarization" 0 0]

/-- The 50-event window (the 5-event pattern above repeated 10 times, which
leaves all variance fractions unchanged) on which the rounded and the exact
variance fractions select different drivers. -/
def wC9 : List InferenceEvent := (List.replicate 10 wC9base).flatten

/-- Five events in which the `model` and `prompt_class` groupings coincide:
both dimensions get fraction 1, so the stored fractions sum to 2. -/
def wC7collinear : List InferenceEvent :=
  List.replicate 2 (mkEvent "gpt-4" "chat" 0 0) ++
    List.replicate 3 (mkEvent "claude-3-opus" "reporting" 0 2)

/-- A generic 6-event window with nonzero variance for the C7 witness. -/
def wC7wit : List InferenceEvent :=
  [mkEvent "gpt-4" "chat" 0 1,
   mkEvent "gpt-4" "chat" 1 2,
   mkEvent "claude-3-opus" "reporting" 0 3,
   mkEvent "claude-3-opus" "chat" 2 4,
   mkEvent "gpt-4" "reporting" 0 5,
   mkEvent "gpt-4" "chat" 0 1]

/-- A batch with retries 0, 1, 2, 3 (all costs 1) for the C8 witness. -/
def b8 : List InferenceEvent :=
  [mkEvent "gpt-4" "chat" 0 1,
   mkEvent "gpt-4" "chat" 1 1,
   mkEvent "gpt-4" "chat" 2 1,
   mkEvent "gpt-4" "chat" 3 1]

/-- A small batch for the C10 witness. -/
def b10 : List InferenceEvent :=
  [mkEvent "gpt-4" "chat" 3 6,
   mkEvent "gpt-4" "reporting" 0 2,
   mkEvent "claude-3-opus" "chat" 1 1]

/-- The event on which the missing `!=` case of the counterfactual condition
evaluator is observable: its `retry_reason` is loosely unequal to the
`retry_only_timeout` rule's value `'timeout'`, yet the evaluator reports no
match. -/
def evC4 : InferenceEvent :=
  { mkEvent "gpt-4" "chat" 2 1 with retry_reason := some "rate_limit" }

/-- The empty request context: every field absent. -/
def emptyCtx : RequestContext := {}

/-! ## Helper lemmas -/

lemma qfloor_le (q : ℚ) : (qfloor q : ℚ) ≤ q := by
  have hden : (0:ℤ) < (q.den : ℤ) := by exact_mod_cast q.pos
  have h := Int.ediv_add_emod q.num (q.den : ℤ)
  have h2 : 0 ≤ q.num % (q.den : ℤ) := Int.emod_nonneg _ (by omega)
  have hmul : qfloor q * (q.den : ℤ) ≤ q.num := by
    unfold qfloor
    nlinarith [h, h2]
  have key : (qfloor q : ℚ) ≤ (q.num : ℚ) / (q.den : ℚ) := by
    rw [le_div_iff₀ (by exact_mod_cast hden)]
    exact_mod_cast hmul
  calc (qfloor q : ℚ) ≤ (q.num : ℚ) / (q.den : ℚ) := key
    _ = q := Rat.num_div_den q

lemma lt_qfloor_add_one (q : ℚ) : q < (qfloor q : ℚ) + 1 := by
  have hden : (0:ℤ) < (q.den : ℤ) := by exact_mod_cast q.pos
  have h := Int.ediv_add_emod q.num (q.den : ℤ)
  have h2 : q.num % (q.den : ℤ) < (q.den : ℤ) := Int.emod_lt_of_pos _ hden
  have hmul : q.num < (qfloor q + 1) * (q.den : ℤ) := by
    unfold qfloor
    nlinarith [h, h2]
  have key : (q.num : ℚ) / (q.den : ℚ) < (qfloor q : ℚ) + 1 := by
    rw [div_lt_iff₀ (by exact_mod_cast hden)]
    exact_mod_cast hmul
  calc q = (q.num : ℚ) / (q.den : ℚ) := (Rat.num_div_den q).symm
    _ < (qfloor q : ℚ) + 1 := key

lemma qfloor_unique {q : ℚ} {n : ℤ} (h1 : (n:ℚ) ≤ q) (h2 : q < (n:ℚ) + 1) :
    qfloor q = n := by
  have ha : qfloor q < n + 1 := by
    have : (qfloor q : ℚ) < (n:ℚ) + 1 := lt_of_le_of_lt (qfloor_le q) h2
    exact_mod_cast this
  have hb : n < qfloor q + 1 := by
    have : (n:ℚ) < (qfloor q : ℚ) + 1 := lt_of_le_of_lt h1 (lt_qfloor_add_one q)
    exact_mod_cast this
  omega

lemma qfloor_mono {a b : ℚ} (h : a ≤ b) : qfloor a ≤ qfloor b := by
  have hq : (qfloor a : ℚ) < (qfloor b : ℚ) + 1 :=
    lt_of_le_of_lt (le_trans (qfloor_le a) h) (lt_qfloor_add_one b)
  have : qfloor a < qfloor b + 1 := by exact_mod_cast hq
  omega

lemma roundq_mono {a b : ℚ} (h : a ≤ b) : roundq a ≤ roundq b :=
  qfloor_mono (by linarith)

lemma roundTo_mono (k : ℕ) {a b : ℚ} (h : a ≤ b) : roundTo k a ≤ roundTo k b := by
  unfold roundTo
  have hpow : (0:ℚ) < (10:ℚ)^k := by positivity
  have hle : ((roundq (a * (10:ℚ)^k) : ℤ) : ℚ) ≤ ((roundq (b * (10:ℚ)^k) : ℤ) : ℚ) := by
    exact_mod_cast roundq_mono (show a * (10:ℚ)^k ≤ b * (10:ℚ)^k by nlinarith)
  gcongr

lemma roundq_intCast (m : ℤ) : roundq (m : ℚ) = m := by
  unfold roundq
  exact qfloor_unique (by linarith) (by linarith)

lemma roundTo_intCast (k : ℕ) (m : ℤ) :
    roundTo k ((m : ℚ) / (10:ℚ)^k) = (m : ℚ) / (10:ℚ)^k := by
  unfold roundTo
  have hpow : ((10:ℚ)^k) ≠ 0 := by positivity
  have harg : (m : ℚ) / (10:ℚ)^k * (10:ℚ)^k = (m : ℚ) := by field_simp
  rw [harg, roundq_intCast]

lemma roundTo_zero (k : ℕ) : roundTo k 0 = 0 := by
  have := roundTo_intCast k 0
  simpa using this

lemma roundTo_one (k : ℕ) : roundTo k 1 = 1 := by
  have h := roundTo_intCast k ((10:ℤ)^k)
  have hpow : ((10:ℚ)^k) ≠ 0 := by positivity
  have harg : (((10:ℤ)^k : ℤ) : ℚ) / (10:ℚ)^k = 1 := by push_cast; field_simp
  rw [harg] at h
  exact h

lemma roundTo_nonneg (k : ℕ) {a : ℚ} (h : 0 ≤ a) : 0 ≤ roundTo k a := by
  have := roundTo_mono k h
  rwa [roundTo_zero] at this

lemma roundTo_le_one (k : ℕ) {a : ℚ} (h : a ≤ 1) : roundTo k a ≤ 1 := by
  have := roundTo_mono k h
  rwa [roundTo_one] at this

lemma ofList_append (xs : List ℚ) (x : ℚ) :
    StreamingStats.ofList (xs ++ [x]) = (StreamingStats.ofList xs).update x := by
  simp [StreamingStats.ofList, List.foldl_append]

lemma ofList_count (xs : List ℚ) : (StreamingStats.ofList xs).count = xs.length := by
  induction xs using List.reverseRecOn with
  | nil => rfl
  | append_singleton ys y ih =>
    rw [ofList_append]
    simp [StreamingStats.update, ih]

lemma ofList_mean_M2 (xs : List ℚ) (h : xs ≠ []) :
    (StreamingStats.ofList xs).mean = xs.sum / (xs.length : ℚ) ∧
    (StreamingStats.ofList xs).M2 =
      (xs.map (fun x => x^2)).sum - xs.sum^2 / (xs.length : ℚ) := by
  induction xs using List.reverseRecOn with
  | nil => exact absurd rfl h
  | append_singleton ys y ih =>
    rw [ofList_append]
    rcases eq_or_ne ys [] with hys | hys
    · subst hys
      constructor
      · show (StreamingStats.ofList []).mean +
          (y - (StreamingStats.ofList []).mean) / (((StreamingStats.ofList []).count + 1 : ℕ) : ℚ) = _
        simp [StreamingStats.ofList, StreamingStats.update]
      · show (StreamingStats.ofList []).M2 + _ * _ = _
        simp [StreamingStats.ofList, StreamingStats.update]
    · obtain ⟨ihm, ihM2⟩ := ih hys
      have hn : (ys.length : ℚ) ≠ 0 := by
        exact_mod_cast Nat.cast_ne_zero.mpr (fun hl => hys (List.length_eq_zero.mp hl))
      have hn1 : ((ys.length : ℚ) + 1) ≠ 0 := by positivity
      have hcount : (StreamingStats.ofList ys).count = ys.length := ofList_count ys
      constructor
      · show (StreamingStats.ofList ys).mean +
          (y - (StreamingStats.ofList ys).mean) / (((StreamingStats.ofList ys).count + 1 : ℕ) : ℚ) = _
        rw [hcount, ihm]
        simp only [List.sum_append, List.length_append, List.sum_cons, List.sum_nil,
          List.length_cons, List.length_nil]
        push_cast
        field_simp
        ring
      · show (StreamingStats.ofList ys).M2 +
          (y - (StreamingStats.ofList ys).mean) *
            (y - ((StreamingStats.ofList ys).mean +
              (y - (StreamingStats.ofList ys).mean) / (((StreamingStats.ofList ys).count + 1 : ℕ) : ℚ))) = _
        rw [hcount, ihm, ihM2]
        simp only [List.sum_append, List.length_append, List.map_append, List.map_cons,
          List.map_nil, List.sum_cons, List.sum_nil, List.length_cons, List.length_nil]
        push_cast
        field_simp
        ring

lemma sum_sq_sub (xs : List ℚ) (c : ℚ) :
    (xs.map (fun x => (x - c)^2)).sum =
      (xs.map (fun x => x^2)).sum - 2*c*xs.sum + (xs.length : ℚ) * c^2 := by
  induction xs with
  | nil => simp
  | cons a l ih =>
    simp only [List.map_cons, List.sum_cons, List.length_cons, ih]
    push_cast
    ring

lemma sum_sq_dev (xs : List ℚ) (h : xs ≠ []) :
    (xs.map (fun x => (x - xs.sum / (xs.length : ℚ))^2)).sum =
      (xs.map (fun x => x^2)).sum - xs.sum^2 / (xs.length : ℚ) := by
  have hn : (xs.length : ℚ) ≠ 0 := by
    exact_mod_cast Nat.cast_ne_zero.mpr (fun hl => h (List.length_eq_zero.mp hl))
  rw [sum_sq_sub]
  field_simp
  ring

lemma ofList_M2_eq_sum_sq_dev (xs : List ℚ) (h : xs ≠ []) :
    (StreamingStats.ofList xs).M2 =
      (xs.map (fun x => (x - xs.sum / (xs.length : ℚ))^2)).sum := by
  rw [(ofList_mean_M2 xs h).2, sum_sq_dev xs h]

lemma ofList_M2_nonneg (xs : List ℚ) : 0 ≤ (StreamingStats.ofList xs).M2 := by
  rcases eq_or_ne xs [] with hx | hx
  · subst hx; simp [StreamingStats.ofList]
  · rw [ofList_M2_eq_sum_sq_dev xs hx]
    apply List.sum_nonneg
    intro q hq
    obtain ⟨x, _, rfl⟩ := List.mem_map.mp hq
    positivity

lemma getVariance_nonneg (xs : List ℚ) : 0 ≤ (StreamingStats.ofList xs).getVariance := by
  unfold StreamingStats.getVariance
  split
  · exact le_refl 0
  · next hc =>
    rw [ofList_count] at hc
    have h2 : 2 ≤ xs.length := Nat.le_of_not_lt hc
    have : (0:ℚ) < ((StreamingStats.ofList xs).count : ℚ) - 1 := by
      rw [ofList_count]
      have : (2:ℚ) ≤ (xs.length : ℚ) := by exact_mod_cast h2
      linarith
    exact div_nonneg (ofList_M2_nonneg xs) (le_of_lt this)

lemma evalLoop_decision (context : RequestContext) (rules : List ActiveRule) :
    (DecisionEngine.evalLoop context rules).decision = "ALLOW" ∨
    (DecisionEngine.evalLoop context rules).decision = "CONDITIONAL" := by
  induction rules with
  | nil => left; rfl
  | cons r rest ih =>
    unfold DecisionEngine.evalLoop
    split
    · exact ih
    · split
      · right; rfl
      · exact ih

/-- C1: for every request context, rule list and fault outcome,
`evaluateRequest` never produces BLOCK (its decision is ALLOW or
CONDITIONAL), and under an internal fault the `catch` handler yields the
ALLOW response with no overrides (the function is total by construction, so
it cannot throw). -/
theorem evaluateRequest_fail_open (context : RequestContext)
    (activeRules : List ActiveRule) (simOutage internalFault : Bool) :
    ((DecisionEngine.evaluateRequest context activeRules simOutage internalFault).decision = "ALLOW" ∨
      (DecisionEngine.evaluateRequest context activeRules simOutage internalFault).decision = "CONDITIONAL") ∧
    DecisionEngine.evaluateRequest context activeRules simOutage true =
      { decision := "ALLOW", overrides := none, rule_id := none } := by
  constructor
  · unfold DecisionEngine.evaluateRequest
    cases internalFault with
    | true => left; rfl
    | false =>
      cases simOutage with
      | true => left; rfl
      | false => exact evalLoop_decision context activeRules
  · rfl

/-- C3: with no fault injected, `evaluateRequest` scans the rules in list
order, honours only those with `deploy_state = "active"`, and returns at the
first condition match a CONDITIONAL decision whose override map is exactly
the singleton `{action.field: action.value}` together with that rule's id;
with no active match it returns ALLOW. -/
theorem evaluateRequest_first_active_match (context : RequestContext)
    (activeRules : List ActiveRule) :
    DecisionEngine.evaluateRequest context activeRules false false =
      match firstActiveMatch context activeRules with
      | some r =>
        { decision := "CONDITIONAL"
          overrides := some [(r.action.field, r.action.value)]
          rule_id := some r.id }
      | none => { decision := "ALLOW", overrides := none, rule_id := none } := by
  show DecisionEngine.evalLoop context activeRules = _
  induction activeRules with
  | nil => rfl
  | cons r rest ih =>
    by_cases hd : r.deploy_state = "active"
    · by_cases hm : DecisionEngine.evaluateCondition context r.condition = true
      · unfold DecisionEngine.evalLoop firstActiveMatch
        simp [List.find?_cons, hd, hm]
      · unfold DecisionEngine.evalLoop firstActiveMatch
        unfold firstActiveMatch at ih
        simp only [Bool.not_eq_true] at hm
        simp [List.find?_cons, hd, hm, ih]
    · unfold DecisionEngine.evalLoop firstActiveMatch
      unfold firstActiveMatch at ih
      simp [List.find?_cons, hd, ih]

/-- C6: feeding any finite sequence of cost values into `StreamingStats`
yields, for sequences of length at least 2, exactly the two-pass sample
variance (sum of squared deviations from the mean over `n − 1`) — Welford's
update is exact in rational arithmetic — and for sequences of fewer than 2
values both the reported variance and standard deviation are exactly 0. -/
theorem streamingStats_welford_exact (xs : List ℚ) :
    (2 ≤ xs.length → (StreamingStats.ofList xs).getVariance = twoPassVariance xs) ∧
    (xs.length < 2 → (StreamingStats.ofList xs).getVariance = 0 ∧
      (StreamingStats.ofList xs).getStdDev = 0) := by
  constructor
  · intro h2
    have hx : xs ≠ [] := by
      intro h
      rw [h] at h2
      simp at h2
    have hcount := ofList_count xs
    unfold StreamingStats.getVariance
    rw [hcount, if_neg (Nat.not_lt.mpr h2), ofList_M2_eq_sum_sq_dev xs hx]
    simp only [twoPassVariance]
  · intro hlt
    have hcount := ofList_count xs
    have hv : (StreamingStats.ofList xs).getVariance = 0 := by
      unfold StreamingStats.getVariance
      rw [hcount, if_pos hlt]
    refine ⟨hv, ?_⟩
    unfold StreamingStats.getStdDev
    rw [hv]
    rfl

/-- Witness for C6 at the concrete sequence `[1, 2, 3]` (two-pass sample
variance 1). -/
theorem streamingStats_welford_exact_witness :
    2 ≤ ([1, 2, 3] : List ℚ).length ∧
    (StreamingStats.ofList [1, 2, 3]).getVariance = twoPassVariance [1, 2, 3] ∧
    twoPassVariance ([1, 2, 3] : List ℚ) = 1 :=
  ⟨by decide, (streamingStats_welford_exact [1, 2, 3]).1 (by decide), by decide⟩

lemma jsRelLt_undefined_right (x : JSVal) : jsRelLt x JSVal.undefined = none := by
  cases x with
  | str s =>
    show (match toNumber (JSVal.str s), toNumber JSVal.undefined with
      | some a, some b => some (decide (a < b))
      | _, _ => none) = none
    show (match strToNumber s, (none : Option ℚ) with
      | some a, some b => some (decide (a < b))
      | _, _ => none) = none
    cases strToNumber s <;> rfl
  | _ => rfl

lemma jsRelLt_undefined_left (y : JSVal) : jsRelLt JSVal.undefined y = none := by
  cases y with
  | str s =>
    show (match toNumber JSVal.undefined, toNumber (JSVal.str s) with
      | some a, some b => some (decide (a < b))
      | _, _ => none) = none
    show (match (none : Option ℚ), strToNumber s with
      | some a, some b => some (decide (a < b))
      | _, _ => none) = none
    cases strToNumber s <;> rfl
  | _ => rfl

/-- C4 (code bug): the counterfactual condition evaluator has no case for
the `!=` operator, so it falls through to `default: return false`.  On an
event whose `retry_reason` is `'rate_limit'` and the catalog condition
`retry_reason != 'timeout'` (the `retry_only_timeout` rule), the values are
loosely unequal and the specification's evaluator matches, yet the code
reports no match. -/
theorem cf_evaluateCondition_ne_operator_missing :
    CounterfactualEngine.evaluateCondition evC4
      CounterfactualEngine.retryOnlyTimeout.condition = false ∧
    specEvaluateCondition evC4 CounterfactualEngine.retryOnlyTimeout.condition = true ∧
    jsEq (getEventField evC4 "retry_reason") (JSVal.str "timeout") = false :=
  ⟨by decide, by decide, by decide⟩

/-- C5 counterexample: a request context in which the `model` field is
missing, matched against the condition `model != 'gpt-4'`, *matches*
(JavaScript `undefined != 'gpt-4'` is true) — a missing field is not
uniformly a non-match as the claim states. -/
theorem hot_path_missing_field_ne_matches :
    DecisionEngine.evaluateCondition emptyCtx
      { field := "model", op := "!=", value := JSVal.str "gpt-4" } = true ∧
    getCtxField emptyCtx "model" = JSVal.undefined :=
  ⟨by decide, by decide⟩

/-- C5 (amended): the hot-path condition evaluator returns false for every
unknown operator and never throws (it is total); a field missing from the
request context is a non-match under `==`, `>`, `<`, `>=` and `<=`, but
under `!=` a missing field always *matches* (undefined is loosely unequal to
every primitive condition value), and under `in` the match is decided by
whether the condition value's string rendering contains `"undefined"`. -/
theorem hot_path_unknown_op_and_missing_field (context : RequestContext)
    (condition : RuleCondition) :
    (condition.op ∉ ["==", "!=", ">", "<", ">=", "<=", "in"] →
      DecisionEngine.evaluateCondition context condition = false) ∧
    (getCtxField context condition.field = JSVal.undefined →
      ((condition.op = "==" → isPrimitive condition.value = true →
          DecisionEngine.evaluateCondition context condition = false) ∧
       ((condition.op = ">" ∨ condition.op = "<" ∨
          condition.op = ">=" ∨ condition.op = "<=") →
          DecisionEngine.evaluateCondition context condition = false) ∧
       (condition.op = "!=" → isPrimitive condition.value = true →
          DecisionEngine.evaluateCondition context condition = true) ∧
       (condition.op = "in" →
          DecisionEngine.evaluateCondition context condition =
            strContains (jsToString condition.value) "undefined"))) := by
  constructor
  · intro hop
    unfold DecisionEngine.evaluateCondition
    split
    all_goals first
      | rfl
      | (next heq => exact absurd (by rw [heq]; simp) hop)
  · intro hmiss
    refine ⟨?_, ?_, ?_, ?_⟩
    · intro hop hprim
      unfold DecisionEngine.evaluateCondition
      rw [hop, hmiss]
      revert hprim
      cases condition.value <;> intro hprim
      all_goals first
        | rfl
        | simp [isPrimitive] at hprim
    · intro hop
      unfold DecisionEngine.evaluateCondition
      rcases hop with h | h | h | h <;> rw [h, hmiss]
      · show (jsRelLt condition.value JSVal.undefined).getD false = false
        rw [jsRelLt_undefined_right]
        rfl
      · show (jsRelLt JSVal.undefined condition.value).getD false = false
        rw [jsRelLt_undefined_left]
        rfl
      · show (match jsRelLt JSVal.undefined condition.value with
          | some r => !r
          | none => false) = false
        rw [jsRelLt_undefined_left]
      · show (match jsRelLt condition.value JSVal.undefined with
          | some r => !r
          | none => false) = false
        rw [jsRelLt_undefined_right]
    · intro hop hprim
      unfold DecisionEngine.evaluateCondition
      rw [hop, hmiss]
      revert hprim
      cases condition.value <;> intro hprim
      all_goals first
        | rfl
        | simp [isPrimitive] at hprim
    · intro hop
      unfold DecisionEngine.evaluateCondition
      rw [hop, hmiss]
      rfl

/-- Witness for C5: the missing `retries` field matches under `!=` and an
unknown operator never matches, at concrete inputs. -/
theorem hot_path_unknown_op_and_missing_field_witness :
    DecisionEngine.evaluateCondition emptyCtx
      { field := "retries", op := "!=", value := JSVal.num 1 } = true ∧
    DecisionEngine.evaluateCondition emptyCtx
      { field := "retries", op := "between", value := JSVal.num 1 } = false :=
  ⟨((hot_path_unknown_op_and_missing_field emptyCtx _).2 (by decide)).2.2.1 rfl (by decide),
   (hot_path_unknown_op_and_missing_field emptyCtx _).1 (by decide)⟩

namespace DecisionCompiler

lemma compileDecision_some_state (events : List InferenceEvent)
    {d : DecisionObject} (h : compileDecision events = some d) :
    d.decision_state = decisionStateOf events := by
  unfold compileDecision at h
  by_cases hlen : events.length < 50
  · rw [if_pos hlen] at h
    exact absurd h (by simp)
  · rw [if_neg hlen] at h
    cases hsel : selectedRuleFor (driverOf events) with
    | none =>
      rw [hsel] at h
      exact absurd h (by simp)
    | some r =>
      rw [hsel] at h
      obtain rfl := Option.some.inj h
      rfl

lemma compileDecision_none_of_short (events : List InferenceEvent)
    (h : events.length < 50) : compileDecision events = none := by
  unfold compileDecision
  rw [if_pos h]

lemma compileDecision_none_of_no_rule (events : List InferenceEvent)
    (h : selectedRuleFor (driverOf events) = none) : compileDecision events = none := by
  unfold compileDecision
  split
  · rfl
  · simp only [h]

/-- C2: `compileDecision` returns null for every window shorter than 50
events and whenever no catalog rule targets the selected dominant driver;
whenever it returns a decision object, the decision state is
INSUFFICIENT_EVIDENCE exactly when the unrounded confidence score is below
0.6, HOLD exactly when the score clears 0.6 and the blast-radius revenue
share exceeds 0.5, and CONDITIONAL exactly in the remaining case. -/
theorem compileDecision_null_and_state (events : List InferenceEvent) :
    (events.length < 50 → compileDecision events = none) ∧
    (selectedRuleFor (driverOf events) = none → compileDecision events = none) ∧
    (∀ d, compileDecision events = some d →
      ((d.decision_state = DecisionState.INSUFFICIENT_EVIDENCE ↔
          finalConfidenceScoreOf events < 6/10) ∧
       (d.decision_state = DecisionState.HOLD ↔
          (6/10 ≤ finalConfidenceScoreOf events ∧
            5/10 < (blastRadiusOf events).affected_revenue_pct)) ∧
       (d.decision_state = DecisionState.CONDITIONAL ↔
          (6/10 ≤ finalConfidenceScoreOf events ∧
            (blastRadiusOf events).affected_revenue_pct ≤ 5/10)))) := by
  refine ⟨compileDecision_none_of_short events, compileDecision_none_of_no_rule events, ?_⟩
  intro d h
  rw [compileDecision_some_state events h]
  unfold decisionStateOf
  split_ifs with h1 h2
  · refine ⟨⟨fun _ => h1, fun _ => rfl⟩, ?_, ?_⟩
    · constructor
      · intro hc; exact absurd hc (by decide)
      · rintro ⟨hle, _⟩; exact absurd h1 (not_lt.mpr hle)
    · constructor
      · intro hc; exact absurd hc (by decide)
      · rintro ⟨hle, _⟩; exact absurd h1 (not_lt.mpr hle)
  · refine ⟨?_, ⟨fun _ => ⟨not_lt.mp h1, h2⟩, fun _ => rfl⟩, ?_⟩
    · constructor
      · intro hc; exact absurd hc (by decide)
      · intro hlt; exact absurd hlt (not_lt.mpr (not_lt.mp h1))
    · constructor
      · intro hc; exact absurd hc (by decide)
      · rintro ⟨_, hble⟩; exact absurd h2 (not_lt.mpr hble)
  · refine ⟨?_, ?_, ⟨fun _ => ⟨not_lt.mp h1, not_lt.mp h2⟩, fun _ => rfl⟩⟩
    · constructor
      · intro hc; exact absurd hc (by decide)
      · intro hlt; exact absurd hlt (not_lt.mpr (not_lt.mp h1))
    · constructor
      · intro hc; exact absurd hc (by decide)
      · rintro ⟨_, hbgt⟩; exact absurd hbgt h2

/-- Witness for C2: on the concrete 50-event window `w50hold` the compiler
returns a decision object in state HOLD, with confidence score 27/40 ≥ 0.6
and blast-radius revenue share 1 > 0.5. -/
theorem compileDecision_null_and_state_witness :
    (compileDecision w50hold).map DecisionObject.decision_state =
      some DecisionState.HOLD ∧
    6/10 ≤ finalConfidenceScoreOf w50hold ∧
    5/10 < (blastRadiusOf w50hold).affected_revenue_pct := by
  have hsc : 6/10 ≤ finalConfidenceScoreOf w50hold := by decide
  have hbl : 5/10 < (blastRadiusOf w50hold).affected_revenue_pct := by decide
  refine ⟨?_, hsc, hbl⟩
  cases hc : compileDecision w50hold with
  | none => exact absurd hc (by decide)
  | some d =>
    have hiff := ((compileDecision_null_and_state w50hold).2.2 d hc).2.1
    have hd : d.decision_state = DecisionState.HOLD := hiff.mpr ⟨hsc, hbl⟩
    simp [hd]

end DecisionCompiler

lemma foldl_add_of_nonneg {α : Type} {f : α → ℚ} (hf : ∀ a, 0 ≤ f a) :
    ∀ (l : List α) (init : ℚ), 0 ≤ init → 0 ≤ l.foldl (fun acc a => acc + f a) init := by
  intro l
  induction l with
  | nil => intro init h; simpa using h
  | cons a t ih =>
    intro init h
    simp only [List.foldl_cons]
    exact ih (init + f a) (add_nonneg h (hf a))

lemma weightedMeanVariance_nonneg (events : List InferenceEvent) (dim : String)
    (globalMean : ℚ) : 0 ≤ weightedMeanVariance events dim globalMean := by
  unfold weightedMeanVariance
  exact foldl_add_of_nonneg
    (f := fun g : String × List ℚ =>
      ((g.2.length : ℚ) *
        (((StreamingStats.ofList g.2).mean - globalMean) *
          ((StreamingStats.ofList g.2).mean - globalMean))))
    (fun g => mul_nonneg (by positivity) (mul_self_nonneg _)) _ 0 (le_refl 0)

lemma dimContribution_bounds (events : List InferenceEvent)
    (h5 : 5 ≤ events.length) (hv : totalVarianceOf events ≠ 0) (dim : String) :
    0 ≤ dimContribution events (totalVarianceOf events) dim ∧
    dimContribution events (totalVarianceOf events) dim ≤ 1 := by
  have htv : 0 < totalVarianceOf events :=
    lt_of_le_of_ne (getVariance_nonneg _) (Ne.symm hv)
  have hn1 : (0:ℚ) < (events.length : ℚ) - 1 := by
    have : (5:ℚ) ≤ (events.length : ℚ) := by exact_mod_cast h5
    linarith
  unfold dimContribution
  constructor
  · apply roundTo_nonneg
    apply le_min
    · exact div_nonneg (div_nonneg (weightedMeanVariance_nonneg events dim _) hn1.le) htv.le
    · norm_num
  · exact roundTo_le_one 4 (min_le_right _ 1)

lemma roundTo4_one_sub_rounds (x y z : ℚ) :
    roundTo 4 (1 - (0 + roundTo 4 x + roundTo 4 y + roundTo 4 z)) =
      1 - (0 + roundTo 4 x + roundTo 4 y + roundTo 4 z) := by
  have hpow : ((10:ℚ)^(4:ℕ)) ≠ 0 := by positivity
  have hkey : (1:ℚ) - (0 + roundTo 4 x + roundTo 4 y + roundTo 4 z) =
      ((((10:ℤ)^(4:ℕ) - (roundq (x * (10:ℚ)^(4:ℕ)) + roundq (y * (10:ℚ)^(4:ℕ)) +
        roundq (z * (10:ℚ)^(4:ℕ)))) : ℤ) : ℚ) / (10:ℚ)^(4:ℕ) := by
    show (1:ℚ) - (0 + (roundq (x * (10:ℚ)^(4:ℕ)) : ℚ) / (10:ℚ)^(4:ℕ) +
        (roundq (y * (10:ℚ)^(4:ℕ)) : ℚ) / (10:ℚ)^(4:ℕ) +
        (roundq (z * (10:ℚ)^(4:ℕ)) : ℚ) / (10:ℚ)^(4:ℕ)) = _
    push_cast
    field_simp
    ring
  rw [hkey, roundTo_intCast]

/-- C7 counterexample: on a 5-event window (nonzero variance) in which the
`model` and `prompt_class` groupings coincide, both dimensions receive
fraction 1, noise is 0, and the stored fractions (noise included) sum to 2 —
strictly more than 1, refuting the claimed ≤ 1 bound on the sum. -/
theorem decomposeVariance_sum_exceeds_one :
    5 ≤ wC7collinear.length ∧ totalVarianceOf wC7collinear = 6/5 ∧
    (decomposeVariance wC7collinear).foldl (fun a p => a + p.2) 0 = 2 ∧
    (1:ℚ) < (decomposeVariance wC7collinear).foldl (fun a p => a + p.2) 0 :=
  ⟨by decide, by decide, by decide, by decide⟩

/-- C7 (amended): `decomposeVariance` returns the empty mapping for windows
of fewer than 5 events or zero total variance; on every other window each
stored fraction (dimensions and noise alike) lies in [0, 1], the reserved
`noise` entry equals `max 0 (1 − Σ dimension fractions)` exactly, and the
fractions including noise sum to `max 1 (Σ dimension fractions)` — which is
1 when the dimension fractions sum to at most 1 but exceeds 1 otherwise
(only each fraction is clamped, not their sum). -/
theorem decomposeVariance_shape (events : List InferenceEvent) :
    (events.length < 5 → decomposeVariance events = []) ∧
    (totalVarianceOf events = 0 → decomposeVariance events = []) ∧
    (5 ≤ events.length → totalVarianceOf events ≠ 0 →
      ((∀ p ∈ decomposeVariance events, 0 ≤ p.2 ∧ p.2 ≤ 1) ∧
       (decomposeVariance events).lookup "noise" = some (max 0 (1 - dimFracSum events)) ∧
       (decomposeVariance events).foldl (fun a p => a + p.2) 0 =
         max 1 (dimFracSum events))) := by
  refine ⟨?_, ?_, ?_⟩
  · intro h
    unfold decomposeVariance
    rw [if_pos h]
  · intro h
    unfold decomposeVariance
    split
    · rfl
    · rw [if_pos h]
  · intro h5 hv
    have hshape : decomposeVariance events =
        [("model", dimContribution events (totalVarianceOf events) "model"),
         ("prompt_class", dimContribution events (totalVarianceOf events) "prompt_class"),
         ("retries", dimContribution events (totalVarianceOf events) "retries"),
         ("noise", max 0 (roundTo 4 (1 -
           (0 + dimContribution events (totalVarianceOf events) "model" +
            dimContribution events (totalVarianceOf events) "prompt_class" +
            dimContribution events (totalVarianceOf events) "retries"))))] := by
      unfold decomposeVariance
      rw [if_neg (Nat.not_lt.mpr h5)]
      simp only [if_neg hv, dimensions, List.map_cons, List.map_nil,
        List.foldl_cons, List.foldl_nil]
      rfl
    have hA := dimContribution_bounds events h5 hv "model"
    have hB := dimContribution_bounds events h5 hv "prompt_class"
    have hC := dimContribution_bounds events h5 hv "retries"
    obtain ⟨xA, hxA⟩ : ∃ x, dimContribution events (totalVarianceOf events) "model" =
      roundTo 4 x := ⟨_, rfl⟩
    obtain ⟨xB, hxB⟩ : ∃ x, dimContribution events (totalVarianceOf events) "prompt_class" =
      roundTo 4 x := ⟨_, rfl⟩
    obtain ⟨xC, hxC⟩ : ∃ x, dimContribution events (totalVarianceOf events) "retries" =
      roundTo 4 x := ⟨_, rfl⟩
    have hsum0 : dimFracSum events =
        0 + dimContribution events (totalVarianceOf events) "model" +
        dimContribution events (totalVarianceOf events) "prompt_class" +
        dimContribution events (totalVarianceOf events) "retries" := by
      unfold dimFracSum
      simp only [dimensions, List.map_cons, List.map_nil, List.foldl_cons, List.foldl_nil]
    have hnz : roundTo 4 (1 -
        (0 + dimContribution events (totalVarianceOf events) "model" +
         dimContribution events (totalVarianceOf events) "prompt_class" +
         dimContribution events (totalVarianceOf events) "retries")) =
        1 - (0 + dimContribution events (totalVarianceOf events) "model" +
         dimContribution events (totalVarianceOf events) "prompt_class" +
         dimContribution events (totalVarianceOf events) "retries") := by
      rw [hxA, hxB, hxC]
      exact roundTo4_one_sub_rounds xA xB xC
    refine ⟨?_, ?_, ?_⟩
    · intro p hp
      rw [hshape] at hp
      simp only [List.mem_cons, List.not_mem_nil, or_false] at hp
      rcases hp with rfl | rfl | rfl | rfl
      · exact hA
      · exact hB
      · exact hC
      · constructor
        · exact le_max_left 0 _
        · apply max_le (by norm_num)
          rw [hnz]
          have := hA.1
          have := hB.1
          have := hC.1
          linarith
    · rw [hshape]
      have hlk : List.lookup "noise"
          [("model", dimContribution events (totalVarianceOf events) "model"),
           ("prompt_class", dimContribution events (totalVarianceOf events) "prompt_class"),
           ("retries", dimContribution events (totalVarianceOf events) "retries"),
           ("noise", max 0 (roundTo 4 (1 -
             (0 + dimContribution events (totalVarianceOf events) "model" +
              dimContribution events (totalVarianceOf events) "prompt_class" +
              dimContribution events (totalVarianceOf events) "retries"))))] =
          some (max 0 (roundTo 4 (1 -
             (0 + dimContribution events (totalVarianceOf events) "model" +
              dimContribution events (totalVarianceOf events) "prompt_class" +
              dimContribution events (totalVarianceOf events) "retries")))) := by
        simp [List.lookup]
      rw [hlk, hnz, hsum0]
    · rw [hshape]
      simp only [List.foldl_cons, List.foldl_nil]
      rw [hnz, ← hsum0]
      rcases le_total (dimFracSum events) 1 with hle | hle
      · rw [max_eq_right (by linarith), max_eq_left hle]
        ring
      · rw [max_eq_left (by linarith), max_eq_right hle]
        ring

/-- Witness for C7 on a concrete 6-event window with nonzero variance. -/
theorem decomposeVariance_shape_witness :
    5 ≤ wC7wit.length ∧ totalVarianceOf wC7wit ≠ 0 ∧
    (∀ p ∈ decomposeVariance wC7wit, 0 ≤ p.2 ∧ p.2 ≤ 1) ∧
    (decomposeVariance wC7wit).lookup "noise" = some (max 0 (1 - dimFracSum wC7wit)) ∧
    (decomposeVariance wC7wit).foldl (fun a p => a + p.2) 0 = max 1 (dimFracSum wC7wit) := by
  have h := (decomposeVariance_shape wC7wit).2.2 (by decide) (by decide)
  exact ⟨by decide, by decide, h.1, h.2.1, h.2.2⟩

lemma applyAction_capRetries1 (e : InferenceEvent) :
    CounterfactualEngine.applyAction e CounterfactualEngine.capRetries1.action =
      if e.retries > 1 then
        some { e with
                retries := 1
                cost_usd := e.cost_usd * ((1 + 1) / (1 + e.retries))
                tokens_in := ((qfloor (e.tokens_in * ((1 + 1) / (1 + e.retries))) : ℤ) : ℚ)
                tokens_out := ((qfloor (e.tokens_out * ((1 + 1) / (1 + e.retries))) : ℤ) : ℚ) }
      else some e := by
  by_cases h : e.retries > 1
  · rw [if_pos h]
    change (if e.retries > (1:ℚ) then _ else _) = _
    rw [if_pos h]
  · rw [if_neg h]
    change (if e.retries > (1:ℚ) then _ else _) = _
    rw [if_neg h]

lemma evaluateCondition_capRetries1 (e : InferenceEvent) :
    CounterfactualEngine.evaluateCondition e CounterfactualEngine.capRetries1.condition =
      decide ((1:ℚ) < e.retries) := rfl

lemma replay_cap1_length_sum (events : List InferenceEvent)
    (h : ∀ e ∈ events, 0 ≤ e.cost_usd ∧ 0 ≤ e.retries) :
    (CounterfactualEngine.replayHistory events CounterfactualEngine.capRetries1).length =
      events.length ∧
    ((CounterfactualEngine.replayHistory events CounterfactualEngine.capRetries1).map
      (·.cost_usd)).sum ≤ (events.map (·.cost_usd)).sum := by
  induction events with
  | nil => exact ⟨rfl, le_refl 0⟩
  | cons e rest ih =>
    have hc : 0 ≤ e.cost_usd := (h e (List.mem_cons_self e rest)).1
    have hr : 0 ≤ e.retries := (h e (List.mem_cons_self e rest)).2
    obtain ⟨ihl, ihs⟩ := ih (fun x hx => h x (List.mem_cons_of_mem _ hx))
    by_cases hm : (1:ℚ) < e.retries
    · have hcond : CounterfactualEngine.evaluateCondition e
          CounterfactualEngine.capRetries1.condition = true := by
        rw [evaluateCondition_capRetries1]
        exact decide_eq_true hm
      have hd : (0:ℚ) < 1 + e.retries := by linarith
      have hcost : e.cost_usd * ((1 + 1) / (1 + e.retries)) ≤ e.cost_usd := by
        have hratio : ((1:ℚ) + 1) / (1 + e.retries) ≤ 1 := by
          rw [div_le_one hd]
          linarith
        calc e.cost_usd * ((1 + 1) / (1 + e.retries)) ≤ e.cost_usd * 1 :=
            mul_le_mul_of_nonneg_left hratio hc
          _ = e.cost_usd := mul_one _
      rw [CounterfactualEngine.replayHistory]
      rw [hcond]
      simp only [if_true, applyAction_capRetries1, if_pos hm]
      constructor
      · simp [ihl]
      · simp only [List.map_cons, List.sum_cons]
        exact add_le_add hcost ihs
    · have hcond : CounterfactualEngine.evaluateCondition e
          CounterfactualEngine.capRetries1.condition = false := by
        rw [evaluateCondition_capRetries1]
        simpa using hm
      rw [CounterfactualEngine.replayHistory]
      rw [hcond]
      simp only [Bool.false_eq_true, if_false]
      constructor
      · simp [ihl]
      · simp only [List.map_cons, List.sum_cons]
        exact add_le_add (le_refl _) ihs

/-- C8: replaying the `cap retries at 1` catalog rule over any batch whose
events satisfy the invariants `cost_usd ≥ 0` and `retries ≥ 0` yields a
batch of the same length whose mean cost (as the streaming accumulator
computes it) is at most the mean cost of the input batch. -/
theorem replay_capRetries_mean_le (events : List InferenceEvent)
    (h : ∀ e ∈ events, 0 ≤ e.cost_usd ∧ 0 ≤ e.retries) :
    (CounterfactualEngine.replayHistory events CounterfactualEngine.capRetries1).length =
      events.length ∧
    meanCostOf (CounterfactualEngine.replayHistory events CounterfactualEngine.capRetries1) ≤
      meanCostOf events := by
  obtain ⟨hl, hs⟩ := replay_cap1_length_sum events h
  refine ⟨hl, ?_⟩
  unfold meanCostOf
  rcases eq_or_ne events [] with rfl | hne
  · exact le_refl _
  · have hne' : CounterfactualEngine.replayHistory events CounterfactualEngine.capRetries1 ≠ [] := by
      intro h0
      apply hne
      have := hl
      rw [h0] at this
      exact List.length_eq_zero.mp this.symm
    have hm1 := (ofList_mean_M2
      ((CounterfactualEngine.replayHistory events CounterfactualEngine.capRetries1).map
        (·.cost_usd)) (by simpa using hne')).1
    have hm2 := (ofList_mean_M2 (events.map (·.cost_usd)) (by simpa using hne)).1
    rw [hm1, hm2]
    have hlen : (((CounterfactualEngine.replayHistory events
        CounterfactualEngine.capRetries1).map (·.cost_usd)).length : ℚ) =
        ((events.map (·.cost_usd)).length : ℚ) := by
      rw [List.length_map, List.length_map, hl]
    rw [hlen]
    have hpos : (0:ℚ) < ((events.map (·.cost_usd)).length : ℚ) := by
      rw [List.length_map]
      have : 0 < events.length := List.length_pos.mpr hne
      exact_mod_cast this
    exact (div_le_div_right hpos).mpr hs

/-- Witness for C8 at a concrete batch with retries 0, 1, 2, 3: the
counterfactual mean is 19/24 against a baseline mean of 1. -/
theorem replay_capRetries_mean_le_witness :
    (∀ e ∈ b8, 0 ≤ e.cost_usd ∧ 0 ≤ e.retries) ∧
    (CounterfactualEngine.replayHistory b8 CounterfactualEngine.capRetries1).length =
      b8.length ∧
    meanCostOf (CounterfactualEngine.replayHistory b8 CounterfactualEngine.capRetries1) ≤
      meanCostOf b8 ∧
    meanCostOf (CounterfactualEngine.replayHistory b8 CounterfactualEngine.capRetries1) = 19/24 ∧
    meanCostOf b8 = 1 := by
  have h := replay_capRetries_mean_le b8 (by decide)
  exact ⟨by decide, h.1, h.2, by decide, by decide⟩

lemma applyAction_cap_reduce (e : InferenceEvent) (v : JSVal) :
    CounterfactualEngine.applyAction e { field := "retries", op := "cap", value := v } =
      match toNumber v with
      | none => some e
      | some cap =>
        if e.retries > cap then
          some { e with
                  retries := cap
                  cost_usd := e.cost_usd * ((1 + cap) / (1 + e.retries))
                  tokens_in := ((qfloor (e.tokens_in * ((1 + cap) / (1 + e.retries))) : ℤ) : ℚ)
                  tokens_out := ((qfloor (e.tokens_out * ((1 + cap) / (1 + e.retries))) : ℤ) : ℚ) }
        else some e := rfl

lemma applyAction_set_reduce (e : InferenceEvent) (v : JSVal) :
    CounterfactualEngine.applyAction e { field := "model", op := "set", value := v } =
      (if jsToString v ≠ e.model then
        some { e with
                model := jsToString v
                cost_usd := e.cost_usd * (CounterfactualEngine.costMap (jsToString v) /
                  CounterfactualEngine.costMap e.model) }
      else some e) := rfl

lemma applyAction_cap_frame (e : InferenceEvent) (v : JSVal) :
    ∃ e', CounterfactualEngine.applyAction e
        { field := "retries", op := "cap", value := v } = some e' ∧
      agreesExceptRetryCap e e' := by
  rw [applyAction_cap_reduce]
  cases toNumber v with
  | none => exact ⟨e, rfl, by simp [agreesExceptRetryCap]⟩
  | some cap =>
    dsimp only
    by_cases hgt : e.retries > cap
    · rw [if_pos hgt]
      exact ⟨_, rfl, by simp [agreesExceptRetryCap]⟩
    · rw [if_neg hgt]
      exact ⟨e, rfl, by simp [agreesExceptRetryCap]⟩

lemma applyAction_set_frame (e : InferenceEvent) (v : JSVal) :
    ∃ e', CounterfactualEngine.applyAction e
        { field := "model", op := "set", value := v } = some e' ∧
      agreesExceptSetModel e e' := by
  rw [applyAction_set_reduce]
  by_cases hne : jsToString v ≠ e.model
  · rw [if_pos hne]
    exact ⟨_, rfl, by simp [agreesExceptSetModel]⟩
  · rw [if_neg hne]
    exact ⟨e, rfl, by simp [agreesExceptSetModel]⟩

lemma replay_nonmatch_mem (rule : CounterfactualRule) :
    ∀ (events : List InferenceEvent) (e : InferenceEvent), e ∈ events →
      CounterfactualEngine.evaluateCondition e rule.condition = false →
      e ∈ CounterfactualEngine.replayHistory events rule := by
  intro events
  induction events with
  | nil => intro e he _; exact absurd he (List.not_mem_nil e)
  | cons a rest ih =>
    intro e he hcond
    rw [CounterfactualEngine.replayHistory]
    rcases List.mem_cons.mp he with rfl | hmem
    · rw [hcond]
      simp only [Bool.false_eq_true, if_false]
      exact List.mem_cons_self e _
    · by_cases hm : CounterfactualEngine.evaluateCondition a rule.condition = true
      · rw [hm]
        simp only [if_true]
        cases CounterfactualEngine.applyAction a rule.action with
        | none => exact ih e hmem hcond
        | some m => exact List.mem_cons_of_mem m (ih e hmem hcond)
      · simp only [Bool.not_eq_true] at hm
        rw [hm]
        simp only [Bool.false_eq_true, if_false]
        exact List.mem_cons_of_mem a (ih e hmem hcond)

lemma replay_pointwise {R : InferenceEvent → InferenceEvent → Prop}
    (act : RuleAction)
    (hR : ∀ e, ∃ e', CounterfactualEngine.applyAction e act = some e' ∧ R e e')
    (hrefl : ∀ e, R e e) (cond : RuleCondition) (rid rdesc : String) :
    ∀ events : List InferenceEvent,
      (CounterfactualEngine.replayHistory events ⟨rid, rdesc, cond, act⟩).length =
        events.length ∧
      ∀ (d : InferenceEvent) (i : ℕ), i < events.length →
        (R (events.getD i d)
            ((CounterfactualEngine.replayHistory events ⟨rid, rdesc, cond, act⟩).getD i d) ∧
         (CounterfactualEngine.evaluateCondition (events.getD i d) cond = false →
           (CounterfactualEngine.replayHistory events ⟨rid, rdesc, cond, act⟩).getD i d =
             events.getD i d)) := by
  intro events
  induction events with
  | nil =>
    refine ⟨rfl, ?_⟩
    intro d i h
    exact absurd h (by simp)
  | cons e rest ih =>
    obtain ⟨ihl, ihp⟩ := ih
    by_cases hm : CounterfactualEngine.evaluateCondition e cond = true
    · obtain ⟨e', he', hRe⟩ := hR e
      have hout : CounterfactualEngine.replayHistory (e :: rest) ⟨rid, rdesc, cond, act⟩ =
          e' :: CounterfactualEngine.replayHistory rest ⟨rid, rdesc, cond, act⟩ := by
        rw [CounterfactualEngine.replayHistory, hm]
        simp only [if_true]
        rw [he']
      rw [hout]
      refine ⟨by simp [ihl], ?_⟩
      intro d i hi
      cases i with
      | zero =>
        refine ⟨by simpa using hRe, ?_⟩
        intro hfalse
        rw [List.getD_cons_zero] at hfalse
        rw [hm] at hfalse
        exact absurd hfalse (by simp)
      | succ j =>
        simp only [List.getD_cons_succ]
        exact ihp d j (by simpa using hi)
    · simp only [Bool.not_eq_true] at hm
      have hout : CounterfactualEngine.replayHistory (e :: rest) ⟨rid, rdesc, cond, act⟩ =
          e :: CounterfactualEngine.replayHistory rest ⟨rid, rdesc, cond, act⟩ := by
        rw [CounterfactualEngine.replayHistory, hm]
        simp only [Bool.false_eq_true, if_false]
      rw [hout]
      refine ⟨by simp [ihl], ?_⟩
      intro d i hi
      cases i with
      | zero => exact ⟨by simpa using hrefl e, fun _ => by simp⟩
      | succ j =>
        simp only [List.getD_cons_succ]
        exact ihp d j (by simpa using hi)

/-- C10: replay never mutates the input batch (the embedding is pure, and
transformed events are fresh records): every event whose condition does not
match appears unchanged in the output for any rule, and positionally, a rule
whose action caps `retries` changes at most `retries`, `cost_usd`,
`tokens_in` and `tokens_out` of each event, while a rule whose action sets
`model` changes at most `model` and `cost_usd` — every other field is
preserved, and batch length is preserved by both action kinds. -/
theorem replayHistory_frame (events : List InferenceEvent) :
    (∀ rule : CounterfactualRule, ∀ e ∈ events,
      CounterfactualEngine.evaluateCondition e rule.condition = false →
      e ∈ CounterfactualEngine.replayHistory events rule) ∧
    (∀ (rid rdesc : String) (cond : RuleCondition) (v : JSVal),
      (CounterfactualEngine.replayHistory events
        ⟨rid, rdesc, cond, ⟨"retries", "cap", v⟩⟩).length = events.length ∧
      ∀ (d : InferenceEvent) (i : ℕ), i < events.length →
        (agreesExceptRetryCap (events.getD i d)
          ((CounterfactualEngine.replayHistory events
            ⟨rid, rdesc, cond, ⟨"retries", "cap", v⟩⟩).getD i d) ∧
         (CounterfactualEngine.evaluateCondition (events.getD i d) cond = false →
           (CounterfactualEngine.replayHistory events
             ⟨rid, rdesc, cond, ⟨"retries", "cap", v⟩⟩).getD i d = events.getD i d))) ∧
    (∀ (rid rdesc : String) (cond : RuleCondition) (v : JSVal),
      (CounterfactualEngine.replayHistory events
        ⟨rid, rdesc, cond, ⟨"model", "set", v⟩⟩).length = events.length ∧
      ∀ (d : InferenceEvent) (i : ℕ), i < events.length →
        (agreesExceptSetModel (events.getD i d)
          ((CounterfactualEngine.replayHistory events
            ⟨rid, rdesc, cond, ⟨"model", "set", v⟩⟩).getD i d) ∧
         (CounterfactualEngine.evaluateCondition (events.getD i d) cond = false →
           (CounterfactualEngine.replayHistory events
             ⟨rid, rdesc, cond, ⟨"model", "set", v⟩⟩).getD i d = events.getD i d))) := by
  refine ⟨fun rule e he hc => replay_nonmatch_mem rule events e he hc, ?_, ?_⟩
  · intro rid rdesc cond v
    exact replay_pointwise ⟨"retries", "cap", v⟩ (fun e => applyAction_cap_frame e v)
      (fun e => by simp [agreesExceptRetryCap]) cond rid rdesc events
  · intro rid rdesc cond v
    exact replay_pointwise ⟨"model", "set", v⟩ (fun e => applyAction_set_frame e v)
      (fun e => by simp [agreesExceptSetModel]) cond rid rdesc events

/-- Witness for C10 on the concrete batch `b10`: the non-retried event
passes through the cap-retries replay unchanged, and position 0 (a retried,
transformed event) agrees with its source on every frame field. -/
theorem replayHistory_frame_witness :
    mkEvent "gpt-4" "reporting" 0 2 ∈
      CounterfactualEngine.replayHistory b10 CounterfactualEngine.capRetries1 ∧
    agreesExceptRetryCap (b10.getD 0 (mkEvent "" "" 0 0))
      ((CounterfactualEngine.replayHistory b10
        ⟨"cap_retries_1", "Cap Retries at 1",
          ⟨"retries", ">", JSVal.num 1⟩, ⟨"retries", "cap", JSVal.num 1⟩⟩).getD 0
        (mkEvent "" "" 0 0)) ∧
    agreesExceptSetModel (b10.getD 1 (mkEvent "" "" 0 0))
      ((CounterfactualEngine.replayHistory b10
        ⟨"downgrade_reporting", "Route to Haiku",
          ⟨"prompt_class", "==", JSVal.str "reporting"⟩,
          ⟨"model", "set", JSVal.str "claude-3-haiku"⟩⟩).getD 1
        (mkEvent "" "" 0 0)) := by
  refine ⟨?_, ?_, ?_⟩
  · exact (replayHistory_frame b10).1 CounterfactualEngine.capRetries1
      (mkEvent "gpt-4" "reporting" 0 2) (by decide) (by decide)
  · exact (((replayHistory_frame b10).2.1 "cap_retries_1" "Cap Retries at 1"
      ⟨"retries", ">", JSVal.num 1⟩ (JSVal.num 1)).2 (mkEvent "" "" 0 0) 0 (by decide)).1
  · exact (((replayHistory_frame b10).2.2 "downgrade_reporting" "Route to Haiku"
      ⟨"prompt_class", "==", JSVal.str "reporting"⟩ (JSVal.str "claude-3-haiku")).2
      (mkEvent "" "" 0 0) 1 (by decide)).1

/-- C9 counterexample: on the concrete 50-event window `wC9` the exact
variance fractions put `retries` strictly ahead of `prompt_class`
(retries = 529/5400984, prompt_class = 484/5400984), but both round to
0.0001 at the 4 decimal places `decomposeVariance` stores, so
the compiler — which scans the stored, rounded map in insertion order —
selects `prompt_class` and emits the `downgrade_reporting` rule, while a
selection over the exact (unrounded) fractions yields `retries`. -/
theorem driver_selection_uses_rounded_fractions :
    DecisionCompiler.driverOf wC9 = "prompt_class" ∧
    (DecisionCompiler.pickDriver (decomposeVarianceExact wC9)).1 = "retries" ∧
    (DecisionCompiler.compileDecision wC9).map (fun d => d.rule_generated.id) =
      some "downgrade_reporting" :=
  ⟨by decide, by decide, by decide⟩

/-- C9 (amended): the compiler's driver (and hence rule) selection operates
on the variance fractions as stored by `decomposeVariance`, i.e. rounded to
4 decimal places — not on the exact fractions — while the decision state is
assigned from the unrounded confidence score and blast-radius share; the
`final_score` the object presents is the 3-decimal rounding of the score the
comparison used. -/
theorem compiler_comparison_value_usage (events : List InferenceEvent) :
    ∀ d, DecisionCompiler.compileDecision events = some d →
      (DecisionCompiler.selectedRuleFor
          (DecisionCompiler.pickDriver (decomposeVariance events)).1 =
        some d.rule_generated ∧
       d.decision_state = DecisionCompiler.decisionStateOf events ∧
       d.confidence.final_score =
         roundTo 3 (DecisionCompiler.finalConfidenceScoreOf events)) := by
  intro d h
  unfold DecisionCompiler.compileDecision at h
  by_cases hlen : events.length < 50
  · rw [if_pos hlen] at h
    exact absurd h (by simp)
  · rw [if_neg hlen] at h
    cases hsel : DecisionCompiler.selectedRuleFor (DecisionCompiler.driverOf events) with
    | none =>
      rw [hsel] at h
      exact absurd h (by simp)
    | some r =>
      rw [hsel] at h
      obtain rfl := Option.some.inj h
      exact ⟨hsel, rfl, rfl⟩

/-- Witness for C9 on the window `wC9`: the emitted rule is the one the
rounded-map driver selects, and the presented final score is the rounded
form of the compared score. -/
theorem compiler_comparison_value_usage_witness :
    (DecisionCompiler.compileDecision wC9).map (fun d => d.rule_generated) =
      some CounterfactualEngine.downgradeReporting ∧
    (DecisionCompiler.compileDecision wC9).map (fun d => d.confidence.final_score) =
      some (roundTo 3 (DecisionCompiler.finalConfidenceScoreOf wC9)) := by
  cases hc : DecisionCompiler.compileDecision wC9 with
  | none => exact absurd hc (by decide)
  | some d =>
    obtain ⟨hrule, _, hscore⟩ := compiler_comparison_value_usage wC9 d hc
    have hdrv : DecisionCompiler.selectedRuleFor
        (DecisionCompiler.pickDriver (decomposeVariance wC9)).1 =
        some CounterfactualEngine.downgradeReporting := by decide
    have hr : d.rule_generated = CounterfactualEngine.downgradeReporting :=
      Option.some.inj (hrule.symm.trans hdrv)
    constructor
    · simp [hr]
    · simp [hscore]
